import Mathlib

/-!
Shallow embedding of the kcloud-cost-optimizer policy engine (Go sources)
together with theorems settling the frozen claims about it.

Conventions used throughout:
* Go `error` results are modelled as `Option String` (`some msg` = non-nil
  error carrying the message, `none` = nil) or as `Except String α` when the
  Go function returns `(value, error)`.
* Go `float64` fields that only ever hold finitely-representable validation
  weights / progress percentages are modelled as `ℚ`.
* Go `time.Time` values are modelled as `Nat` ticks of a monotone logical
  clock; the zero `time.Time` is tick `0`.  All `time.Now()` / `time.Since`
  calls inside one mutex-protected block observe the same tick.
* Go maps used as ordered-irrelevant dictionaries are modelled as
  association lists.
-/

namespace KCloud

/-! ## Validator (internal/validator/validator.go) -/

namespace Validator

/-- Character class `[a-z0-9]` used by the DNS-subdomain regexes. -/
def isLowerAlnum (c : Char) : Bool :=
  (('a' ≤ c) && (c ≤ 'z')) || (('0' ≤ c) && (c ≤ '9'))

/-- Character class `[a-z0-9\-]`. -/
def isLowerAlnumDash (c : Char) : Bool :=
  isLowerAlnum c || (c == '-')

/-- Anchored matcher for the Go regex `^[a-z0-9]([a-z0-9\-]*[a-z0-9])?$`
(used for both `nameRegex` and `namespaceRegex`). -/
def dnsMatch (s : List Char) : Bool :=
  match s with
  | [] => false
  | c :: rest =>
    isLowerAlnum c &&
      (match rest.getLast? with
       | none => true
       | some l => isLowerAlnum l && rest.all isLowerAlnumDash)

/-- Character class `[a-zA-Z0-9]`. -/
def isAlnum (c : Char) : Bool :=
  (('a' ≤ c) && (c ≤ 'z')) || (('A' ≤ c) && (c ≤ 'Z')) || (('0' ≤ c) && (c ≤ '9'))

/-- Character class `[a-zA-Z0-9\-_.]`. -/
def isAlnumDashDot (c : Char) : Bool :=
  isAlnum c || (c == '-') || (c == '_') || (c == '.')

/-- Anchored matcher for one name segment
`[a-zA-Z0-9]([a-zA-Z0-9\-_.]*[a-zA-Z0-9])?` of the label key/value regexes. -/
def segMatch (s : List Char) : Bool :=
  match s with
  | [] => false
  | c :: rest =>
    isAlnum c &&
      (match rest.getLast? with
       | none => true
       | some l => isAlnum l && rest.all isAlnumDashDot)

/-- Split a character list at the first occurrence of `c`: returns the part
before it and, when present, the part after it. -/
def splitFirst (c : Char) : List Char → List Char × Option (List Char)
  | [] => ([], none)
  | x :: xs =>
    if x == c then ([], some xs)
    else
      let r := splitFirst c xs
      (x :: r.1, r.2)

/-- Anchored matcher for the Go label/annotation key regex
`^([a-zA-Z0-9]([a-zA-Z0-9\-_.]*[a-zA-Z0-9])?/)?[a-zA-Z0-9]([a-zA-Z0-9\-_.]*[a-zA-Z0-9])?$`:
an optional prefix segment terminated by `/` followed by one name segment. -/
def labelKeyMatch (s : List Char) : Bool :=
  match splitFirst '/' s with
  | (pre, none) => segMatch pre
  | (pre, some post) => segMatch pre && segMatch post

/-- Go `Validator.validateName`. -/
def validateName (name : String) : Option String :=
  if name = "" then some "name cannot be empty"
  else if name.length > 253 then some "name cannot exceed 253 characters"
  else if !dnsMatch name.data then
    some "name must be a valid DNS subdomain name (lowercase alphanumeric and hyphens only)"
  else none

/-- Go `Validator.validateNamespace`. -/
def validateNamespace (ns : String) : Option String :=
  if ns.length > 63 then some "namespace cannot exceed 63 characters"
  else if !dnsMatch ns.data then some "namespace must be a valid DNS label name"
  else none

/-- Go `Validator.validateLabelKey`. -/
def validateLabelKey (key : String) : Option String :=
  if key = "" then some "label key cannot be empty"
  else if key.length > 253 then some "label key cannot exceed 253 characters"
  else if !labelKeyMatch key.data then some "label key must be a valid label key format"
  else none

/-- Go `Validator.validateLabelValue`. -/
def validateLabelValue (value : String) : Option String :=
  if value.length > 63 then some "label value cannot exceed 63 characters"
  else if !segMatch value.data then some "label value must be a valid label value format"
  else none

/-- Go `Validator.validateLabels`: first failing key/value wins. -/
def validateLabels : List (String × String) → Option String
  | [] => none
  | (k, v) :: rest =>
    match validateLabelKey k with
    | some e => some ("invalid label key " ++ k ++ ": " ++ e)
    | none =>
      match validateLabelValue v with
      | some e => some ("invalid label value for key " ++ k ++ ": " ++ e)
      | none => validateLabels rest

/-- Go `Validator.validateAnnotationKey`. -/
def validateAnnotationKey (key : String) : Option String :=
  if key = "" then some "annotation key cannot be empty"
  else if key.length > 253 then some "annotation key cannot exceed 253 characters"
  else if !labelKeyMatch key.data then
    some "annotation key must be a valid annotation key format"
  else none

/-- Go `Validator.validateAnnotationValue` (256KB limit). -/
def validateAnnotationValue (value : String) : Option String :=
  if value.length > 262144 then some "annotation value cannot exceed 262144 characters"
  else none

/-- Go `Validator.validateAnnotations`. -/
def validateAnnotations : List (String × String) → Option String
  | [] => none
  | (k, v) :: rest =>
    match validateAnnotationKey k with
    | some e => some ("invalid annotation key " ++ k ++ ": " ++ e)
    | none =>
      match validateAnnotationValue v with
      | some e => some ("invalid annotation value for key " ++ k ++ ": " ++ e)
      | none => validateAnnotations rest

/-- Policy kinds from `internal/types` that `ValidatePolicy` dispatches on;
`other` covers any further string value of the Go `PolicyType` string type. -/
inductive PolicyType
  | costOptimization
  | automation
  | workloadPriority
  | security
  | resourceQuota
  | other (s : String)
  deriving DecidableEq, Repr

/-- Policy status values used by the sources. -/
inductive PolicyStatus
  | active
  | inactive
  | draft
  | archived
  deriving DecidableEq, Repr

/-- Go `types.PolicyMetadata` (the fields the validator reads). -/
structure PolicyMetadata where
  name : String
  ptype : PolicyType
  pstatus : PolicyStatus
  priority : Int
  namespc : String
  labels : List (String × String)
  annotations : List (String × String)
  deriving DecidableEq, Repr

/-- Go `types.Objective`: `(Type, Weight, Target)`. -/
structure Objective where
  otype : String
  weight : ℚ
  target : String
  deriving DecidableEq, Repr

/-- Go `types.Constraint` (fields the validator reads). -/
structure Constraint where
  ctype : String
  value : String
  deriving DecidableEq, Repr

/-- Go `types.Rule` (fields the validator reads). -/
structure Rule where
  name : String
  condition : String
  action : String
  deriving DecidableEq, Repr

/-- Go `types.Action` (field the validator reads). -/
structure PolicyAction where
  atype : String
  deriving DecidableEq, Repr

/-- Go `types.PolicySpec` (fields the validator reads). -/
structure PolicySpec where
  ptype : PolicyType
  objectives : List Objective
  constraints : List Constraint
  rules : List Rule
  actions : List PolicyAction
  deriving DecidableEq, Repr

/-- Go `types.Policy`: metadata plus an optional (nil-able) spec. -/
structure Policy where
  metadata : PolicyMetadata
  spec : Option PolicySpec
  deriving DecidableEq, Repr

/-- The promoted `policy.Type` field (from the embedded metadata). -/
def Policy.ptype (p : Policy) : PolicyType := p.metadata.ptype

/-- Go `Validator.validateMetadata`. -/
def validateMetadata (m : PolicyMetadata) : Option String :=
  match validateName m.name with
  | some e => some ("invalid name: " ++ e)
  | none =>
    match (if m.namespc ≠ "" then validateNamespace m.namespc else none) with
    | some e => some ("invalid namespace: " ++ e)
    | none =>
      match validateLabels m.labels with
      | some e => some ("invalid labels: " ++ e)
      | none =>
        match validateAnnotations m.annotations with
        | some e => some ("invalid annotations: " ++ e)
        | none => none

/-- Go `Validator.validateObjective`. -/
def validateObjective (o : Objective) : Option String :=
  if o.otype = "" then some "objective type cannot be empty"
  else if o.weight ≤ 0 ∨ o.weight > 1 then
    some "objective weight must be between 0 and 1"
  else if o.target = "" then some "objective target cannot be empty"
  else none

/-- The per-objective loop of `Validator.validateObjectives`: first failure wins. -/
def validateObjectivesLoop : List Objective → Option String
  | [] => none
  | o :: rest =>
    match validateObjective o with
    | some e => some ("objective validation failed: " ++ e)
    | none => validateObjectivesLoop rest

/-- Sum of objective weights (`totalWeight` accumulator). -/
def weightSum (objectives : List Objective) : ℚ :=
  (objectives.map Objective.weight).sum

/-- Go `Validator.validateObjectives`: non-empty, per-objective checks, then
`totalWeight > 0` and `totalWeight ∈ [0.99, 1.01]`. -/
def validateObjectives (objectives : List Objective) : Option String :=
  if objectives.length = 0 then some "at least one objective is required"
  else
    match validateObjectivesLoop objectives with
    | some e => some e
    | none =>
      let totalWeight := weightSum objectives
      if totalWeight ≤ 0 then some "total weight must be greater than 0"
      else if totalWeight < 99 / 100 ∨ totalWeight > 101 / 100 then
        some "total weight should be approximately 1.0"
      else none

/-- Go `Validator.validateConstraint`. -/
def validateConstraint (c : Constraint) : Option String :=
  if c.ctype = "" then some "constraint type cannot be empty"
  else if c.value = "" then some "constraint value cannot be empty"
  else none

/-- Go `Validator.validateConstraints`. -/
def validateConstraints : List Constraint → Option String
  | [] => none
  | c :: rest =>
    match validateConstraint c with
    | some e => some ("constraint validation failed: " ++ e)
    | none => validateConstraints rest

/-- Go `Validator.validateRule`. -/
def validateRule (r : Rule) : Option String :=
  if r.name = "" then some "rule name cannot be empty"
  else if r.condition = "" then some "rule condition cannot be empty"
  else if r.action = "" then some "rule action cannot be empty"
  else none

/-- Go `Validator.validateRules`. -/
def validateRules : List Rule → Option String
  | [] => none
  | r :: rest =>
    match validateRule r with
    | some e => some ("rule validation failed: " ++ e)
    | none => validateRules rest

/-- Go `Validator.validateAction`. -/
def validatePolicyAction (a : PolicyAction) : Option String :=
  if a.atype = "" then some "action type cannot be empty" else none

/-- Go `Validator.validateActions`. -/
def validatePolicyActions : List PolicyAction → Option String
  | [] => none
  | a :: rest =>
    match validatePolicyAction a with
    | some e => some ("action validation failed: " ++ e)
    | none => validatePolicyActions rest

/-- Go `Validator.validateCostOptimizationPolicy`. -/
def validateCostOptimizationPolicy (p : Policy) : Option String :=
  match p.spec with
  | none => some "spec cannot be nil"
  | some sp =>
    match validateObjectives sp.objectives with
    | some e => some ("objectives validation failed: " ++ e)
    | none =>
      match validateConstraints sp.constraints with
      | some e => some ("constraints validation failed: " ++ e)
      | none =>
        match validateRules sp.rules with
        | some e => some ("rules validation failed: " ++ e)
        | none =>
          match validatePolicyActions sp.actions with
          | some e => some ("actions validation failed: " ++ e)
          | none => none

/-- Go `Validator.validateAutomationPolicy`: no automation-specific checks,
always returns nil. -/
def validateAutomationPolicy (_p : Policy) : Option String := none

/-- Go `Validator.validateWorkloadPriorityPolicy`: always nil. -/
def validateWorkloadPriorityPolicy (_p : Policy) : Option String := none

/-- Go `Validator.validateSecurityPolicy`: always nil. -/
def validateSecurityPolicy (_p : Policy) : Option String := none

/-- Go `Validator.validateResourceQuotaPolicy`: always nil. -/
def validateResourceQuotaPolicy (_p : Policy) : Option String := none

/-- Go `Validator.ValidatePolicy`: nil guard, metadata validation, then a
dispatch on the policy kind. -/
def ValidatePolicy (policy : Option Policy) : Option String :=
  match policy with
  | none => some "policy cannot be nil"
  | some p =>
    match validateMetadata p.metadata with
    | some e => some ("metadata validation failed: " ++ e)
    | none =>
      match p.ptype with
      | .costOptimization =>
        match validateCostOptimizationPolicy p with
        | some e => some ("cost optimization policy validation failed: " ++ e)
        | none => none
      | .automation =>
        match validateAutomationPolicy p with
        | some e => some ("automation policy validation failed: " ++ e)
        | none => none
      | .workloadPriority =>
        match validateWorkloadPriorityPolicy p with
        | some e => some ("workload priority policy validation failed: " ++ e)
        | none => none
      | .security =>
        match validateSecurityPolicy p with
        | some e => some ("security policy validation failed: " ++ e)
        | none => none
      | .resourceQuota =>
        match validateResourceQuotaPolicy p with
        | some e => some ("resource quota policy validation failed: " ++ e)
        | none => none
      | .other s => some ("unknown policy type: " ++ s)

/-- Objectives of the sample automation policy below: a single objective whose
weight sums to 1/2, far outside `[0.99, 1.01]`. -/
def exAutomationObjectives : List Objective :=
  [{ otype := "cost-reduction", weight := 1 / 2, target := "20%" }]

/-- A structurally valid Automation-kind policy whose objective weights sum
to 1/2. -/
def exAutomationPolicy : Policy :=
  { metadata :=
      { name := "auto-rule"
        ptype := .automation
        pstatus := .active
        priority := 100
        namespc := "default"
        labels := []
        annotations := [] }
    spec := some
      { ptype := .automation
        objectives := exAutomationObjectives
        constraints := []
        rules := []
        actions := [] } }

/-- A valid CostOptimization policy with a single objective of weight 1. -/
def exCostPolicy : Policy :=
  { metadata :=
      { name := "cost-policy"
        ptype := .costOptimization
        pstatus := .active
        priority := 100
        namespc := "default"
        labels := []
        annotations := [] }
    spec := some
      { ptype := .costOptimization
        objectives := [{ otype := "cost-reduction", weight := 1, target := "20%" }]
        constraints := []
        rules := []
        actions := [] } }

end Validator

end KCloud

/-! ## Expression validator (internal/validator/expression.go) -/

namespace KCloud

namespace ExprValidator

/-- Go regexp word class `\\w` = `[0-9A-Za-z_]`. -/
def isWordChar (c : Char) : Bool :=
  (('a' ≤ c) && (c ≤ 'z')) || (('A' ≤ c) && (c ≤ 'Z')) ||
    (('0' ≤ c) && (c ≤ '9')) || (c == '_')

/-- Go regexp whitespace class `\\s` = `[\\t\\n\\f\\r ]`. -/
def isSpaceChar (c : Char) : Bool :=
  (c == ' ') || (c == '\t') || (c == '\n') || (c == '\x0c') || (c == '\r')

/-- Strip an explicit character-list pattern off the front of the input,
returning the remainder on success. -/
def stripLit : List Char → List Char → Option (List Char)
  | [], rest => some rest
  | _ :: _, [] => none
  | p :: ps, c :: cs => if p == c then stripLit ps cs else none

/-- Does one of the keywords occur right here (at the head of `cs`)? -/
def kwHere (kws : List (List Char)) (cs : List Char) : Bool :=
  kws.any fun kw => (stripLit kw cs).isSome

/-- Scanner for the Go regex `\\.(kw1|kw2|...)`: a literal dot immediately
followed by one of the keywords, anywhere in the input. -/
def scanDotKw (kws : List (List Char)) : List Char → Bool
  | [] => false
  | c :: cs => (c == '.' && kwHere kws cs) || scanDotKw kws cs

/-- Drop the maximal run of regexp whitespace from the front. -/
def dropSpaces : List Char → List Char
  | [] => []
  | c :: cs => if isSpaceChar c then dropSpaces cs else c :: cs

/-- Does `kw \\s* delim` match at the head of `cs` for one of the keywords? -/
def callHere (kws : List (List Char)) (delim : Char) (cs : List Char) : Bool :=
  kws.any fun kw =>
    match stripLit kw cs with
    | none => false
    | some rest =>
      match dropSpaces rest with
      | [] => false
      | d :: _ => d == delim

/-- Word-boundary test for a keyword starting with a word character: the
previous character (if any) must not be a word character. -/
def boundaryOk : Option Char → Bool
  | none => true
  | some p => !isWordChar p

/-- Scanner for the Go regex `\\b(kw1|kw2|...)\\s*delim` (all of the listed
keywords start with a word character): tries every start position, carrying
the previous character for the word-boundary test. -/
def scanCallKw (kws : List (List Char)) (delim : Char) : Option Char → List Char → Bool
  | _, [] => false
  | prev, c :: cs =>
    (boundaryOk prev && callHere kws delim (c :: cs)) || scanCallKw kws delim (some c) cs

/-- Keyword group of the first two dangerous patterns. -/
def kwsDot : List (List Char) :=
  ["exec".data, "system".data, "eval".data, "import".data, "__".data]

/-- Keyword group of the third dangerous pattern `\\b(os|sys|runtime)\\s*\\.`. -/
def kwsPkg : List (List Char) := ["os".data, "sys".data, "runtime".data]

/-- Keyword group of the fourth dangerous pattern
`\\b(panic|recover|defer)\\s*\\(`. -/
def kwsCtl : List (List Char) := ["panic".data, "recover".data, "defer".data]

/-- Go `strings.Contains` on character lists. -/
def containsSub (needle : List Char) : List Char → Bool
  | [] => needle.isEmpty
  | c :: cs => (stripLit needle (c :: cs)).isSome || containsSub needle cs

/-- Common body of `ExpressionValidator.isBalancedParentheses` /
`isBalancedBrackets`: a running signed counter that must never go negative
and must end at zero. -/
def balancedAux (openC closeC : Char) (count : Int) : List Char → Bool
  | [] => count == 0
  | c :: cs =>
    if c == openC then balancedAux openC closeC (count + 1) cs
    else if c == closeC then
      if count - 1 < 0 then false else balancedAux openC closeC (count - 1) cs
    else balancedAux openC closeC count cs

/-- Go `ExpressionValidator.isBalancedParentheses`. -/
def isBalancedParentheses (expression : String) : Bool :=
  balancedAux '(' ')' 0 expression.data

/-- Go `ExpressionValidator.isBalancedBrackets`. -/
def isBalancedBrackets (expression : String) : Bool :=
  balancedAux '[' ']' 0 expression.data

/-- Go `ExpressionValidator.validateExpressionContent`: the four dangerous
regex patterns in order, the required-context-variable check (`workload`,
`policy`, `cluster`), balanced parentheses, balanced brackets. -/
def validateExpressionContent (expression : String) : Option String :=
  if scanDotKw kwsDot expression.data then
    some "expression contains potentially dangerous operation: dot-access"
  else if scanCallKw kwsDot '(' none expression.data then
    some "expression contains potentially dangerous operation: call"
  else if scanCallKw kwsPkg '.' none expression.data then
    some "expression contains potentially dangerous operation: package"
  else if scanCallKw kwsCtl '(' none expression.data then
    some "expression contains potentially dangerous operation: control"
  else if !(containsSub "workload".data expression.data ||
            containsSub "policy".data expression.data ||
            containsSub "cluster".data expression.data) then
    some "expression must reference at least one of: workload, policy, cluster"
  else if !isBalancedParentheses expression then
    some "expression has unbalanced parentheses"
  else if !isBalancedBrackets expression then
    some "expression has unbalanced brackets"
  else none

/-- Declarative occurrence of `. kw` for some keyword in the group. -/
def DotOcc (kws : List (List Char)) (cs : List Char) : Prop :=
  ∃ pre kw post, kw ∈ kws ∧ cs = pre ++ '.' :: (kw ++ post)

/-- Declarative occurrence of `kw \\s* delim` preceded by a word boundary. -/
def CallOcc (kws : List (List Char)) (delim : Char) (cs : List Char) : Prop :=
  ∃ pre kw sp post, kw ∈ kws ∧
    cs = pre ++ kw ++ sp ++ delim :: post ∧
    (∀ c ∈ sp, isSpaceChar c = true) ∧
    (pre = [] ∨ ∃ pre0 p, pre = pre0 ++ [p] ∧ isWordChar p = false)

/-- Declarative substring occurrence. -/
def SubOcc (needle cs : List Char) : Prop :=
  ∃ pre post, cs = pre ++ needle ++ post

/-- Declarative balancedness: no prefix closes more than it opens, and the
totals agree. -/
def BalancedOcc (openC closeC : Char) (cs : List Char) : Prop :=
  (∀ n, (cs.take n).count closeC ≤ (cs.take n).count openC) ∧
    cs.count openC = cs.count closeC

/-- Generalization of `BalancedOcc` with a starting counter value, matching
the accumulator of `balancedAux`. -/
def BalancedFrom (openC closeC : Char) (k : Int) (cs : List Char) : Prop :=
  (∀ n, (((cs.take n).count closeC : Int)) ≤ k + ((cs.take n).count openC : Int)) ∧
    k + ((cs.count openC : Int)) = ((cs.count closeC : Int))

/-- The sample defect-free expression `"workload == exec"` of the C7
counterexample: it contains the bare forbidden identifier `exec`. -/
def exBareForbidden : String := "workload == exec"

/-- The sample expression referencing only the `time` context variable. -/
def exTimeOnly : String := "time.hour > 8"

end ExprValidator

end KCloud

/-! ## Association-list helpers (models of Go maps and pointer heaps) -/

namespace KCloud

/-- Lookup in an association list (model of Go map read / pointer deref). -/
def lookupA {α β : Type} [DecidableEq α] : List (α × β) → α → Option β
  | [], _ => none
  | (k', v) :: rest, k => if k' = k then some v else lookupA rest k

/-- Replace the value at a key when present (model of in-place update through
an existing Go map entry or pointer). -/
def updateA {α β : Type} [DecidableEq α] : List (α × β) → α → β → List (α × β)
  | [], _, _ => []
  | (k', v') :: rest, k, v =>
    if k' = k then (k', v) :: rest else (k', v') :: updateA rest k v

/-- Apply a function to the value at a key when present. -/
def modifyA {α β : Type} [DecidableEq α] : List (α × β) → α → (β → β) → List (α × β)
  | [], _, _ => []
  | (k', v') :: rest, k, f =>
    if k' = k then (k', f v') :: rest else (k', v') :: modifyA rest k f

/-- Go map assignment `m[k] = v`: replace when present, otherwise add. -/
def insertA {α β : Type} [DecidableEq α] (l : List (α × β)) (k : α) (v : β) :
    List (α × β) :=
  if (lookupA l k).isSome then updateA l k v else l ++ [(k, v)]

end KCloud

/-! ## Policy enforcer and action generator
(internal/enforcer/enforcer.go, embedded in the repository sources) -/

namespace KCloud

namespace Enforcer

/-- Go `types.DecisionType` string constants that `generateActions` switches
on; `other` covers any remaining string value (including NoOp). -/
inductive DecisionType
  | schedule
  | reschedule
  | migrate
  | scale
  | terminate
  | suspend
  | resume
  | optimize
  | other (s : String)
  deriving DecidableEq, Repr

/-- Go `types.DecisionStatus` values used by the enforcer. -/
inductive DecisionStatus
  | pending
  | running
  | completed
  | failed
  | cancelled
  deriving DecidableEq, Repr

/-- Opaque resource requirements carried by a workload. -/
structure ResourceRequirements where
  cpuMillis : Nat
  memoryBytes : Nat
  deriving DecidableEq, Repr

/-- Go `types.Workload` (the fields the enforcer reads). -/
structure Workload where
  id : String
  requirements : ResourceRequirements
  deriving DecidableEq, Repr

/-- Go `types.Decision` (the fields the enforcer reads and writes). -/
structure Decision where
  id : String
  workloadId : String
  dtype : DecisionType
  clusterId : String
  nodeId : String
  recommendedCluster : String
  recommendedNode : String
  message : String
  reason : String
  details : List (String × String)
  status : DecisionStatus
  deriving DecidableEq, Repr

/-- Go `ActionType` constants of the enforcer package. -/
inductive ActionType
  | schedule
  | reschedule
  | migrate
  | scale
  | terminate
  | suspend
  | resume
  | update
  | notify
  deriving DecidableEq, Repr

/-- Values stored in an action's `Parameters` map (Go `map[string]interface{}`):
strings, possibly-missing decision-detail entries, a requirements struct. -/
inductive ParamValue
  | str (s : String)
  | strOpt (s : Option String)
  | res (r : ResourceRequirements)
  deriving DecidableEq, Repr

/-- Go `enforcer.Action`: type, target, parameters, timeout (seconds). -/
structure Action where
  atype : ActionType
  target : String
  parameters : List (String × ParamValue)
  timeoutSec : Nat
  deriving DecidableEq, Repr

/-- Go `generateScheduleActions`: the Schedule action plus, only when the
decision carries a non-empty message, a Notify action for the scheduler. -/
def generateScheduleActions (decision : Decision) (workload : Workload) : List Action :=
  let actions : List Action :=
    [{ atype := .schedule
       target := decision.workloadId
       parameters :=
         [("workload_id", .str workload.id),
          ("cluster_id", .str decision.clusterId),
          ("node_id", .str decision.nodeId),
          ("recommended_cluster", .str decision.recommendedCluster),
          ("recommended_node", .str decision.recommendedNode),
          ("resources", .res workload.requirements)]
       timeoutSec := 5 * 60 }]
  if decision.message ≠ "" then
    actions ++
      [{ atype := .notify
         target := "scheduler"
         parameters :=
           [("message", .str decision.message),
            ("workload_id", .str workload.id),
            ("decision_id", .str decision.id)]
         timeoutSec := 30 }]
  else actions

/-- Go `generateRescheduleActions`. -/
def generateRescheduleActions (decision : Decision) (workload : Workload) : List Action :=
  [{ atype := .reschedule
     target := decision.workloadId
     parameters :=
       [("workload_id", .str workload.id),
        ("current_cluster", .str decision.clusterId),
        ("recommended_cluster", .str decision.recommendedCluster),
        ("reason", .str decision.reason)]
     timeoutSec := 10 * 60 }]

/-- Go `generateMigrateActions`. -/
def generateMigrateActions (decision : Decision) (workload : Workload) : List Action :=
  [{ atype := .migrate
     target := decision.workloadId
     parameters :=
       [("workload_id", .str workload.id),
        ("source_cluster", .str decision.clusterId),
        ("target_cluster", .str decision.recommendedCluster),
        ("source_node", .str decision.nodeId),
        ("target_node", .str decision.recommendedNode),
        ("migration_strategy", .str "live")]
     timeoutSec := 15 * 60 }]

/-- Go `generateScaleActions`. -/
def generateScaleActions (decision : Decision) (workload : Workload) : List Action :=
  [{ atype := .scale
     target := decision.workloadId
     parameters :=
       [("workload_id", .str workload.id),
        ("scale_factor", .strOpt (lookupA decision.details "scale_factor")),
        ("scale_direction", .strOpt (lookupA decision.details "scale_direction"))]
     timeoutSec := 5 * 60 }]

/-- Go `generateTerminateActions`. -/
def generateTerminateActions (decision : Decision) (workload : Workload) : List Action :=
  [{ atype := .terminate
     target := decision.workloadId
     parameters :=
       [("workload_id", .str workload.id),
        ("reason", .str decision.reason),
        ("grace_period", .str "30s")]
     timeoutSec := 2 * 60 }]

/-- Go `generateSuspendActions`. -/
def generateSuspendActions (decision : Decision) (workload : Workload) : List Action :=
  [{ atype := .suspend
     target := decision.workloadId
     parameters :=
       [("workload_id", .str workload.id),
        ("reason", .str decision.reason)]
     timeoutSec := 2 * 60 }]

/-- Go `generateResumeActions`. -/
def generateResumeActions (decision : Decision) (workload : Workload) : List Action :=
  [{ atype := .resume
     target := decision.workloadId
     parameters :=
       [("workload_id", .str workload.id),
        ("reason", .str decision.reason)]
     timeoutSec := 2 * 60 }]

/-- Go `generateOptimizeActions`: the Update action plus an unconditional
Notify action for the optimizer. -/
def generateOptimizeActions (decision : Decision) (workload : Workload) : List Action :=
  [{ atype := .update
     target := decision.workloadId
     parameters :=
       [("workload_id", .str workload.id),
        ("optimizations", .strOpt (lookupA decision.details "optimizations"))]
     timeoutSec := 5 * 60 },
   { atype := .notify
     target := "optimizer"
     parameters :=
       [("message", .str "Workload optimization completed"),
        ("workload_id", .str workload.id),
        ("decision_id", .str decision.id)]
     timeoutSec := 30 }]

/-- Go `policyEnforcer.generateActions`: the eight-way switch over the
decision type; everything else is an unsupported-decision error. -/
def generateActions (decision : Decision) (workload : Workload) :
    Except String (List Action) :=
  match decision.dtype with
  | .schedule => .ok (generateScheduleActions decision workload)
  | .reschedule => .ok (generateRescheduleActions decision workload)
  | .migrate => .ok (generateMigrateActions decision workload)
  | .scale => .ok (generateScaleActions decision workload)
  | .terminate => .ok (generateTerminateActions decision workload)
  | .suspend => .ok (generateSuspendActions decision workload)
  | .resume => .ok (generateResumeActions decision workload)
  | .optimize => .ok (generateOptimizeActions decision workload)
  | .other s => .error ("unsupported decision type: " ++ s)

/-- The (type, target, timeout-seconds) signature of an action. -/
def actionSig (a : Action) : ActionType × String × Nat :=
  (a.atype, a.target, a.timeoutSec)

/-- Modelled from the spec: the action table of §4.6 projected to
(type, target, timeout) signatures, amended so that the Schedule row's
Notify("scheduler") entry appears only when the decision carries a non-empty
message (as the code does). -/
def specActionTable (d : Decision) : Except String (List (ActionType × String × Nat)) :=
  match d.dtype with
  | .schedule =>
    .ok ([(.schedule, d.workloadId, 300)] ++
      (if d.message ≠ "" then [(.notify, "scheduler", 30)] else []))
  | .reschedule => .ok [(.reschedule, d.workloadId, 600)]
  | .migrate => .ok [(.migrate, d.workloadId, 900)]
  | .scale => .ok [(.scale, d.workloadId, 300)]
  | .terminate => .ok [(.terminate, d.workloadId, 120)]
  | .suspend => .ok [(.suspend, d.workloadId, 120)]
  | .resume => .ok [(.resume, d.workloadId, 120)]
  | .optimize => .ok [(.update, d.workloadId, 300), (.notify, "optimizer", 30)]
  | .other s => .error ("unsupported decision type: " ++ s)

/-- A Schedule decision with an empty message (the C8 counterexample input). -/
def exScheduleDecision : Decision :=
  { id := "d-sched", workloadId := "w-1", dtype := .schedule,
    clusterId := "c-1", nodeId := "n-1", recommendedCluster := "c-2",
    recommendedNode := "n-2", message := "", reason := "placement",
    details := [], status := .pending }

/-- A sample workload used by the concrete enforcement scenarios. -/
def exWorkload : Workload :=
  { id := "w-1", requirements := { cpuMillis := 500, memoryBytes := 1024 } }

end Enforcer

end KCloud

/-! ## Policy enforcer state machine (internal/enforcer/enforcer.go) -/

namespace KCloud

namespace Enforcer

/-- Go `EnforcementState` values. -/
inductive EnforcementState
  | pending
  | running
  | completed
  | failed
  | cancelled
  deriving DecidableEq, Repr

/-- Rendering of an enforcement state (for the cancel error message). -/
def EnforcementState.name : EnforcementState → String
  | .pending => "pending"
  | .running => "running"
  | .completed => "completed"
  | .failed => "failed"
  | .cancelled => "cancelled"

/-- Rendering of an action type (for event messages). -/
def ActionType.name : ActionType → String
  | .schedule => "schedule"
  | .reschedule => "reschedule"
  | .migrate => "migrate"
  | .scale => "scale"
  | .terminate => "terminate"
  | .suspend => "suspend"
  | .resume => "resume"
  | .update => "update"
  | .notify => "notify"

/-- Go `EnforcementEvent`: type, message, timestamp tick, and the data map
with values rendered as strings. -/
structure EnforcementEvent where
  etype : String
  message : String
  timestamp : Nat
  data : List (String × String)
  deriving DecidableEq, Repr

/-- Go `EnforcementStatus`.  `Details` and `Events` are modelled by value in
this trace model (the per-field aliasing of the Go map/slice is studied
separately in the snapshot model). -/
structure EnforcementStatus where
  decisionId : String
  status : EnforcementState
  progress : ℚ
  message : String
  startedAt : Nat
  completedAt : Option Nat
  duration : Option Nat
  details : List (String × String)
  events : List EnforcementEvent
  deriving DecidableEq, Repr

/-- Result of `EnforcementEngine.ExecuteAction`. -/
structure ActionResult where
  success : Bool
  durationSec : Nat
  deriving DecidableEq, Repr

/-- State of the policy enforcer plus the pieces of the outside world it
touches.  Go statuses live behind pointers shared by the map and the
background goroutine, so the map sends decision ids to heap references and
the heap holds the records.  `executed` logs every action handed to
`EnforcementEngine.ExecuteAction`, in order.  `now` is the logical clock;
every `time.Now()`/`time.Since` inside one mutex-protected block reads it. -/
structure PEState where
  enforcements : List (String × Nat)
  statuses : List (Nat × EnforcementStatus)
  nextRef : Nat
  workloads : List (String × Workload)
  decisions : List (String × Decision)
  executed : List Action
  now : Nat
  deriving DecidableEq, Repr

/-- Status reachable from a decision id (map lookup then pointer deref). -/
def lookupStatus (st : PEState) (id : String) : Option EnforcementStatus :=
  (lookupA st.enforcements id).bind fun ref => lookupA st.statuses ref

/-- Mutate the status record behind a heap reference. -/
def modifyStatus (st : PEState) (ref : Nat) (f : EnforcementStatus → EnforcementStatus) :
    PEState :=
  { st with statuses := modifyA st.statuses ref f }

/-- Go `policyEnforcer.addEvent`: append to the status event log under lock. -/
def addEventGo (st : PEState) (ref : Nat) (ev : EnforcementEvent) : PEState :=
  modifyStatus st ref fun s => { s with events := s.events ++ [ev] }

/-- Go `policyEnforcer.updateStatus`: set state and message; on the terminal
states also set completion time, duration and progress 100. -/
def updateStatusGo (st : PEState) (ref : Nat) (state : EnforcementState)
    (message : String) : PEState :=
  modifyStatus st ref fun s =>
    let s' := { s with status := state, message := message }
    if state = .completed ∨ state = .failed then
      { s' with completedAt := some st.now,
                duration := some (st.now - s.startedAt),
                progress := 100 }
    else s'

/-- The fresh status record created by `Enforce`. -/
def freshStatus (d : Decision) (now : Nat) : EnforcementStatus :=
  { decisionId := d.id, status := .pending, progress := 0,
    message := "Enforcement pending", startedAt := now,
    completedAt := none, duration := none, details := [], events := [] }

/-- Program counter of the background `executeEnforcement` goroutine; each
constructor is one mutex-protected (or purely local) step of the Go code. -/
inductive TaskPC
  | setRunning
  | emitStarted
  | prepare
  | loopHead (actions : List Action) (i : Nat)
  | emitActionStart (actions : List Action) (i : Nat)
  | execAction (actions : List Action) (i : Nat)
  | emitActionFailed (actions : List Action) (i : Nat) (err : String)
  | emitActionCompleted (actions : List Action) (i : Nat) (res : ActionResult)
  | updateDecisionRec (actions : List Action)
  | failUpdate (msg : String)
  | deferredCheck
  | emitFinal
  | done
  deriving DecidableEq, Repr

/-- A background enforcement task: the decision captured by the goroutine,
the shared status pointer, and the program counter. -/
structure TaskState where
  decision : Decision
  statusRef : Nat
  pc : TaskPC
  deriving DecidableEq, Repr

/-- Creation half of Go `policyEnforcer.Enforce` (status record plus spawned
goroutine). -/
def enforceCreate (st : PEState) (d : Decision) :
    PEState × Option String × Option TaskState :=
  let ref := st.nextRef
  ({ st with enforcements := insertA st.enforcements d.id ref,
             statuses := (ref, freshStatus d st.now) :: st.statuses,
             nextRef := ref + 1 },
   none,
   some { decision := d, statusRef := ref, pc := .setRunning })

/-- Go `policyEnforcer.Enforce`: reject when a stored status for the decision
is Running; otherwise store a fresh Pending status and spawn the background
task.  Returns without running any part of the task. -/
def enforce (st : PEState) (d : Decision) :
    PEState × Option String × Option TaskState :=
  match lookupStatus st d.id with
  | some s =>
    if s.status = .running then
      (st, some ("enforcement already in progress for decision " ++ d.id), none)
    else enforceCreate st d
  | none => enforceCreate st d

/-- Go `policyEnforcer.GetEnforcementStatus` in the trace model: a value copy
of the stored record, or an error for unknown ids. -/
def getEnforcementStatusT (st : PEState) (id : String) :
    Except String EnforcementStatus :=
  match lookupStatus st id with
  | none => .error ("enforcement status not found for decision " ++ id)
  | some s => .ok s

/-- Go `policyEnforcer.CancelEnforcement`: only a Running status may be
cancelled; the cancel writes a zero-valued completion time, overwrites it
with now, and — because the `IsZero` guard is inverted in the source — sets
the duration only when `StartedAt` is the zero time. -/
def cancelEnforcement (st : PEState) (id : String) : PEState × Option String :=
  match lookupA st.enforcements id with
  | none => (st, some ("enforcement status not found for decision " ++ id))
  | some ref =>
    match lookupA st.statuses ref with
    | none => (st, some ("enforcement status not found for decision " ++ id))
    | some s =>
      if s.status ≠ .running then
        (st, some ("cannot cancel enforcement in state " ++ s.status.name))
      else
        let s' :=
          { s with
            status := .cancelled,
            message := "Enforcement cancelled",
            completedAt := some st.now,
            duration := if s.startedAt = 0 then some (st.now - s.startedAt) else s.duration,
            events := s.events ++
              [{ etype := "cancelled", message := "Enforcement cancelled by user",
                 timestamp := st.now, data := [] }] }
        ({ st with statuses := updateA st.statuses ref s' }, none)

/-- The `action_started` event of the execution loop. -/
def startEvent (a : Action) (now : Nat) : EnforcementEvent :=
  { etype := "action_started",
    message := "Executing action: " ++ a.atype.name,
    timestamp := now,
    data := [("action_type", a.atype.name), ("action_target", a.target)] }

/-- The `action_failed` event of the execution loop. -/
def failEvent (a : Action) (err : String) (now : Nat) : EnforcementEvent :=
  { etype := "action_failed",
    message := "Action failed: " ++ err,
    timestamp := now,
    data := [("action_type", a.atype.name), ("error", err)] }

/-- The `action_completed` event of the execution loop. -/
def completeEvent (a : Action) (r : ActionResult) (now : Nat) : EnforcementEvent :=
  { etype := "action_completed",
    message := "Action completed: " ++ a.atype.name,
    timestamp := now,
    data := [("action_type", a.atype.name),
             ("success", if r.success then "true" else "false"),
             ("duration", toString r.durationSec)] }

/-- The progress write at the head of iteration `i` of the action loop. -/
def setProgress (st : PEState) (ref : Nat) (i total : Nat) : PEState :=
  modifyStatus st ref fun s => { s with progress := (i : ℚ) / (total : ℚ) * 100 }

/-- The deferred block of `executeEnforcement`: if the status is still
Running, mark it Completed with completion time, duration and progress 100;
then append the completion event carrying the current status message. -/
def deferredRun (st : PEState) (ref : Nat) : PEState :=
  let st1 := modifyStatus st ref fun s =>
    if s.status = .running then
      { s with completedAt := some st.now,
               duration := some (st.now - s.startedAt),
               status := .completed,
               message := "Enforcement completed successfully",
               progress := 100 }
    else s
  let msg := match lookupA st1.statuses ref with
    | some s => s.message
    | none => ""
  addEventGo st1 ref { etype := "completed", message := msg, timestamp := st1.now, data := [] }

/-- The blocks of one successful loop iteration (progress write, start
event, engine invocation log, completion event), in Go source order. -/
def loopBlocksOk (st : PEState) (ref : Nat) (a : Action) (r : ActionResult)
    (i total : Nat) : PEState :=
  let st1 := setProgress st ref i total
  let st2 := addEventGo st1 ref (startEvent a st1.now)
  let st3 := { st2 with executed := st2.executed ++ [a] }
  addEventGo st3 ref (completeEvent a r st3.now)

/-- The blocks of one failing loop iteration (progress write, start event,
engine invocation log, failure event), in Go source order. -/
def loopBlocksFail (st : PEState) (ref : Nat) (a : Action) (e : String)
    (i total : Nat) : PEState :=
  let st1 := setProgress st ref i total
  let st2 := addEventGo st1 ref (startEvent a st1.now)
  let st3 := { st2 with executed := st2.executed ++ [a] }
  addEventGo st3 ref (failEvent a e st3.now)

/-- The action loop of `executeEnforcement`, run sequentially (no
interleaving): each iteration performs the progress write, the start event,
the engine call and its log, then either the failure event (stopping with
the error) or the completion event and the next iteration.  The engine
oracle `exec` is pure, so consulting it before the blocks is observationally
the Go order. -/
def execLoop (exec : Action → Except String ActionResult) (ref total : Nat) :
    PEState → List Action → Nat → PEState × Option String
  | st, [], _ => (st, none)
  | st, a :: rest, i =>
    match exec a with
    | .error e => (loopBlocksFail st ref a e i total, some e)
    | .ok r => execLoop exec ref total (loopBlocksOk st ref a r i total) rest (i + 1)

/-- The first two blocks of `executeEnforcement`: mark the status Running
and emit the start event. -/
def runPrefix (st : PEState) (ref : Nat) : PEState :=
  let st1 := modifyStatus st ref fun s =>
    { s with status := .running, message := "Enforcement in progress" }
  addEventGo st1 ref
    { etype := "started", message := "Enforcement started", timestamp := st1.now, data := [] }

/-- Go `executeEnforcement`, run sequentially from start to finish with no
interleaved operations: mark Running, emit the start event, fetch the
workload, generate the actions, run the loop, update the decision record on
success, then the deferred block. -/
def executeEnforcementRun (exec : Action → Except String ActionResult)
    (st : PEState) (d : Decision) (ref : Nat) : PEState :=
  let st2 := runPrefix st ref
  match lookupA st2.workloads d.workloadId with
  | none =>
    deferredRun (updateStatusGo st2 ref .failed "Failed to get workload: workload not found") ref
  | some w =>
    match generateActions d w with
    | .error e =>
      deferredRun (updateStatusGo st2 ref .failed ("Failed to generate actions: " ++ e)) ref
    | .ok actions =>
      match execLoop exec ref actions.length st2 actions 0 with
      | (st3, some e) =>
        deferredRun (updateStatusGo st3 ref .failed ("Action execution failed: " ++ e)) ref
      | (st3, none) =>
        let d' := { d with status := .completed }
        let st4 := { st3 with decisions := updateA st3.decisions d'.id d' }
        deferredRun st4 ref

/-- One micro-step of the background goroutine at block granularity: every
constructor of `TaskPC` is one mutex-protected block (or a purely local
computation), so other operations — in particular `CancelEnforcement` — may
interleave between any two steps. -/
def taskStep (exec : Action → Except String ActionResult)
    (st : PEState) (t : TaskState) : PEState × TaskState :=
  match t.pc with
  | .setRunning =>
    (modifyStatus st t.statusRef fun s =>
      { s with status := .running, message := "Enforcement in progress" },
     { t with pc := .emitStarted })
  | .emitStarted =>
    (addEventGo st t.statusRef
      { etype := "started", message := "Enforcement started", timestamp := st.now, data := [] },
     { t with pc := .prepare })
  | .prepare =>
    match lookupA st.workloads t.decision.workloadId with
    | none => (st, { t with pc := .failUpdate "Failed to get workload: workload not found" })
    | some w =>
      match generateActions t.decision w with
      | .error e => (st, { t with pc := .failUpdate ("Failed to generate actions: " ++ e) })
      | .ok actions => (st, { t with pc := .loopHead actions 0 })
  | .loopHead actions i =>
    if i < actions.length then
      (setProgress st t.statusRef i actions.length, { t with pc := .emitActionStart actions i })
    else (st, { t with pc := .updateDecisionRec actions })
  | .emitActionStart actions i =>
    match actions[i]? with
    | some a =>
      (addEventGo st t.statusRef (startEvent a st.now), { t with pc := .execAction actions i })
    | none => (st, { t with pc := .deferredCheck })
  | .execAction actions i =>
    match actions[i]? with
    | some a =>
      let st1 := { st with executed := st.executed ++ [a] }
      match exec a with
      | .error e => (st1, { t with pc := .emitActionFailed actions i e })
      | .ok r => (st1, { t with pc := .emitActionCompleted actions i r })
    | none => (st, { t with pc := .deferredCheck })
  | .emitActionFailed actions i e =>
    match actions[i]? with
    | some a =>
      (addEventGo st t.statusRef (failEvent a e st.now),
       { t with pc := .failUpdate ("Action execution failed: " ++ e) })
    | none => (st, { t with pc := .failUpdate ("Action execution failed: " ++ e) })
  | .emitActionCompleted actions i r =>
    match actions[i]? with
    | some a =>
      (addEventGo st t.statusRef (completeEvent a r st.now),
       { t with pc := .loopHead actions (i + 1) })
    | none => (st, { t with pc := .loopHead actions (i + 1) })
  | .updateDecisionRec _ =>
    let d' := { t.decision with status := .completed }
    ({ st with decisions := updateA st.decisions d'.id d' },
     { t with decision := d', pc := .deferredCheck })
  | .failUpdate msg =>
    (updateStatusGo st t.statusRef .failed msg, { t with pc := .deferredCheck })
  | .deferredCheck =>
    (modifyStatus st t.statusRef fun s =>
      if s.status = .running then
        { s with completedAt := some st.now,
                 duration := some (st.now - s.startedAt),
                 status := .completed,
                 message := "Enforcement completed successfully",
                 progress := 100 }
      else s,
     { t with pc := .emitFinal })
  | .emitFinal =>
    let msg := match lookupA st.statuses t.statusRef with
      | some s => s.message
      | none => ""
    (addEventGo st t.statusRef
      { etype := "completed", message := msg, timestamp := st.now, data := [] },
     { t with pc := .done })
  | .done => (st, t)

/-- Operations a scheduler can interleave with the single background task:
one task micro-step, a cancel call, or a clock advance. -/
inductive SchedOp
  | taskStepOp
  | cancelOp (id : String)
  | tick (d : Nat)
  deriving DecidableEq, Repr

/-- Run a schedule of operations against the enforcer state and one task. -/
def runOps (exec : Action → Except String ActionResult) :
    PEState → TaskState → List SchedOp → PEState × TaskState
  | st, t, [] => (st, t)
  | st, t, op :: ops =>
    match op with
    | .taskStepOp =>
      let r := taskStep exec st t
      runOps exec r.1 r.2 ops
    | .cancelOp id => runOps exec (cancelEnforcement st id).1 t ops
    | .tick d => runOps exec { st with now := st.now + d } t ops

/-- An Optimize decision (two generated actions) used by the concrete
cancellation scenarios. -/
def exOptimizeDecision : Decision :=
  { id := "d-opt", workloadId := "w-1", dtype := .optimize,
    clusterId := "c-1", nodeId := "n-1", recommendedCluster := "c-2",
    recommendedNode := "n-2", message := "optimize it", reason := "cost",
    details := [("optimizations", "cpu")], status := .pending }

/-- The empty enforcer state with one stored workload and one stored
decision, at clock tick 1. -/
def exInitialState : PEState :=
  { enforcements := [], statuses := [], nextRef := 0,
    workloads := [("w-1", exWorkload)],
    decisions := [("d-opt", exOptimizeDecision)],
    executed := [], now := 1 }

/-- An engine oracle that succeeds on every action. -/
def exEngineOk : Action → Except String ActionResult :=
  fun _ => .ok { success := true, durationSec := 1 }

/-- The status record written by a successful `CancelEnforcement` over a
previous record `s` at tick `now`: Cancelled, the cancel message, the
completion time, the appended `cancelled` event — and, because the source's
`IsZero` guard is inverted, a duration only when `startedAt` is the zero
time. -/
def cancelledStatus (s : EnforcementStatus) (now : Nat) : EnforcementStatus :=
  { s with
    status := .cancelled,
    message := "Enforcement cancelled",
    completedAt := some now,
    duration := if s.startedAt = 0 then some (now - s.startedAt) else s.duration,
    events := s.events ++
      [{ etype := "cancelled", message := "Enforcement cancelled by user",
         timestamp := now, data := [] }] }

/-- Replace the status heap of an enforcer state. -/
def withStatuses (st : PEState) (statuses : List (Nat × EnforcementStatus)) : PEState :=
  { st with statuses := statuses }

/-- A stored Running status used by the concrete cancel scenarios. -/
def exRunningStatus : EnforcementStatus :=
  { decisionId := "d-opt", status := .running, progress := 0,
    message := "Enforcement in progress", startedAt := 1,
    completedAt := none, duration := none, details := [], events := [] }

/-- An enforcer state holding `exRunningStatus` behind reference 0, at clock
tick 2. -/
def exRunningState : PEState :=
  { enforcements := [("d-opt", 0)], statuses := [(0, exRunningStatus)],
    nextRef := 1, workloads := [("w-1", exWorkload)],
    decisions := [("d-opt", exOptimizeDecision)], executed := [], now := 2 }

/-- The schedule of the first concrete cancel scenario: run the task up to
the completion of action 0, cancel, then let the task run to the end. -/
def exCancelOps : List SchedOp :=
  List.replicate 7 .taskStepOp ++ [.cancelOp "d-opt"] ++ List.replicate 9 .taskStepOp

/-- Enforce the Optimize decision and run the first cancel schedule. -/
def exCancelRun : PEState × TaskState :=
  match enforce exInitialState exOptimizeDecision with
  | (st1, _, some t) => runOps exEngineOk st1 t exCancelOps
  | (st1, _, none) =>
    (st1, { decision := exOptimizeDecision, statusRef := 0, pc := .done })

/-- The schedule of the second concrete cancel scenario: mark the task
Running, advance the clock, then cancel. -/
def exCancelEarlyOps : List SchedOp :=
  [.taskStepOp, .tick 1, .cancelOp "d-opt"]

/-- Enforce the Optimize decision and run the second cancel schedule. -/
def exCancelEarlyRun : PEState × TaskState :=
  match enforce exInitialState exOptimizeDecision with
  | (st1, _, some t) => runOps exEngineOk st1 t exCancelEarlyOps
  | (st1, _, none) =>
    (st1, { decision := exOptimizeDecision, statusRef := 0, pc := .done })

end Enforcer

end KCloud

/-! ## Memory storage backend (internal/storage/memory/manager.go) -/

namespace KCloud

namespace MemStorage

/-- Error values of the storage package referenced by the memory backend. -/
inductive StorageErr
  | errStorageConnection
  | errStorageOperation
  deriving DecidableEq, Repr

/-- Opaque handles for the four underlying stores. -/
inductive StoreKind
  | policyStore
  | workloadStore
  | decisionStore
  | evaluationStore
  deriving DecidableEq, Repr

/-- Go `memoryStorageManager`: the four store handles are fixed, so only the
closed flag matters; the results of the underlying stores' `Close` and
`Health` calls are oracle fields, since those stores live outside the
embedded sources. -/
structure MemoryStorageManager where
  closed : Bool
  policyCloseErr : Option StorageErr
  workloadCloseErr : Option StorageErr
  decisionCloseErr : Option StorageErr
  evaluationCloseErr : Option StorageErr
  policyHealthErr : Option StorageErr
  workloadHealthErr : Option StorageErr
  decisionHealthErr : Option StorageErr
  evaluationHealthErr : Option StorageErr
  deriving DecidableEq, Repr

/-- Go `memoryStorageManager.Policy`: nil once closed. -/
def policyOf (m : MemoryStorageManager) : Option StoreKind :=
  if m.closed then none else some .policyStore

/-- Go `memoryStorageManager.Workload`. -/
def workloadOf (m : MemoryStorageManager) : Option StoreKind :=
  if m.closed then none else some .workloadStore

/-- Go `memoryStorageManager.Decision`. -/
def decisionOf (m : MemoryStorageManager) : Option StoreKind :=
  if m.closed then none else some .decisionStore

/-- Go `memoryStorageManager.Evaluation`. -/
def evaluationOf (m : MemoryStorageManager) : Option StoreKind :=
  if m.closed then none else some .evaluationStore

/-- Go `memoryStorageManager.Health`: connection error once closed, otherwise
the first failing store health. -/
def healthOf (m : MemoryStorageManager) : Option StorageErr :=
  if m.closed then some .errStorageConnection
  else
    match m.policyHealthErr with
    | some e => some e
    | none =>
      match m.workloadHealthErr with
      | some e => some e
      | none =>
        match m.decisionHealthErr with
        | some e => some e
        | none =>
          match m.evaluationHealthErr with
          | some e => some e
          | none => none

/-- Go `memoryStorageManager.Close`: idempotent; closes all stores, keeping
the first error (the policy store's close error is assigned unconditionally,
the others only while no error has been recorded), and marks the manager
closed. -/
def closeM (m : MemoryStorageManager) : MemoryStorageManager × Option StorageErr :=
  if m.closed then (m, none)
  else
    let err :=
      match m.policyCloseErr with
      | some e => some e
      | none =>
        match m.workloadCloseErr with
        | some e => some e
        | none =>
          match m.decisionCloseErr with
          | some e => some e
          | none => m.evaluationCloseErr
    ({ m with closed := true }, err)

/-- Go `memoryTransaction`: the manager it wraps plus the committed and
rolled-back flags. -/
structure MemoryTransaction where
  manager : MemoryStorageManager
  committed : Bool
  rolledBack : Bool
  deriving DecidableEq, Repr

/-- Go `memoryStorageManager.BeginTransaction`: connection error once closed,
otherwise a fresh transaction wrapper. -/
def beginTransaction (m : MemoryStorageManager) :
    Except StorageErr MemoryTransaction :=
  if m.closed then .error .errStorageConnection
  else .ok { manager := m, committed := false, rolledBack := false }

/-- Go `memoryTransaction.Policy`: nil after commit or rollback, otherwise
the manager's store. -/
def txPolicy (t : MemoryTransaction) : Option StoreKind :=
  if t.committed || t.rolledBack then none else some .policyStore

/-- Go `memoryTransaction.Workload`. -/
def txWorkload (t : MemoryTransaction) : Option StoreKind :=
  if t.committed || t.rolledBack then none else some .workloadStore

/-- Go `memoryTransaction.Decision`. -/
def txDecision (t : MemoryTransaction) : Option StoreKind :=
  if t.committed || t.rolledBack then none else some .decisionStore

/-- Go `memoryTransaction.Evaluation`. -/
def txEvaluation (t : MemoryTransaction) : Option StoreKind :=
  if t.committed || t.rolledBack then none else some .evaluationStore

/-- Go `memoryTransaction.Commit`: nil when already committed, operation
error when rolled back, otherwise mark committed. -/
def commitT (t : MemoryTransaction) : MemoryTransaction × Option StorageErr :=
  if t.committed then (t, none)
  else if t.rolledBack then (t, some .errStorageOperation)
  else ({ t with committed := true }, none)

/-- Go `memoryTransaction.Rollback`: nil when already rolled back, operation
error when committed, otherwise mark rolled back. -/
def rollbackT (t : MemoryTransaction) : MemoryTransaction × Option StorageErr :=
  if t.rolledBack then (t, none)
  else if t.committed then (t, some .errStorageOperation)
  else ({ t with rolledBack := true }, none)

/-- The operations a caller can apply to a transaction. -/
inductive TxOp
  | commitOp
  | rollbackOp
  deriving DecidableEq, Repr

/-- Apply one transaction operation, keeping the state. -/
def applyTxOp (t : MemoryTransaction) : TxOp → MemoryTransaction
  | .commitOp => (commitT t).1
  | .rollbackOp => (rollbackT t).1

/-- Apply a sequence of transaction operations. -/
def applyTxOps (t : MemoryTransaction) : List TxOp → MemoryTransaction
  | [] => t
  | op :: ops => applyTxOps (applyTxOp t op) ops

/-- A transaction is never both committed and rolled back. -/
def TxOk (t : MemoryTransaction) : Prop :=
  ¬(t.committed = true ∧ t.rolledBack = true)

/-- A fresh open manager whose stores close and report health without
errors. -/
def exManager : MemoryStorageManager :=
  { closed := false,
    policyCloseErr := none, workloadCloseErr := none,
    decisionCloseErr := none, evaluationCloseErr := none,
    policyHealthErr := none, workloadHealthErr := none,
    decisionHealthErr := none, evaluationHealthErr := none }

/-- The transaction returned by `beginTransaction exManager`. -/
def exTransaction : MemoryTransaction :=
  { manager := exManager, committed := false, rolledBack := false }

end MemStorage

end KCloud

/-! ## Snapshot model of `GetEnforcementStatus`
(shallow struct copy with shared map / slice backing) -/

namespace KCloud

namespace Snapshot

open Enforcer

/-- The slice header of the Go `Events` field: backing-array reference plus
length. -/
structure EventsSlice where
  arrRef : Nat
  len : Nat
  deriving DecidableEq, Repr

/-- The Go `EnforcementStatus` struct as stored in memory: scalar fields by
value, the `Details` map and the `Events` slice as references into a heap. -/
structure StatusObj where
  decisionId : String
  status : EnforcementState
  progress : ℚ
  message : String
  startedAt : Nat
  completedAt : Option Nat
  detailsRef : Nat
  events : EventsSlice
  deriving DecidableEq, Repr

/-- The heap of map objects and slice backing arrays. -/
structure EnfHeap where
  maps : List (Nat × List (String × String))
  arrays : List (Nat × List EnforcementEvent)
  deriving DecidableEq, Repr

/-- Go `statusCopy := *status`: a struct copy duplicates every field,
including the `Details` map reference and the `Events` slice header. -/
def copyStatus (s : StatusObj) : StatusObj := s

/-- Go `policyEnforcer.GetEnforcementStatus`: look the status up and return
the struct copy, or an error for unknown ids. -/
def getEnforcementStatus (enf : List (String × StatusObj)) (id : String) :
    Except String StatusObj :=
  match lookupA enf id with
  | none => .error ("enforcement status not found for decision " ++ id)
  | some status => .ok (copyStatus status)

/-- A caller writing `s.Details[k] = v` through a status value: mutates the
shared map object in the heap. -/
def mapWrite (h : EnfHeap) (ref : Nat) (k v : String) : EnfHeap :=
  { h with maps := modifyA h.maps ref (fun m => insertA m k v) }

/-- A caller writing `s.Events[idx] = ev` through a status value: mutates the
shared backing array in the heap. -/
def arrWrite (h : EnfHeap) (ref idx : Nat) (ev : EnforcementEvent) : EnfHeap :=
  { h with arrays := modifyA h.arrays ref (fun a => a.set idx ev) }

/-- The details map a status value denotes under a heap. -/
def detailsView (h : EnfHeap) (s : StatusObj) : Option (List (String × String)) :=
  lookupA h.maps s.detailsRef

/-- The event list a status value denotes under a heap (the slice sees `len`
entries of its backing array). -/
def eventsView (h : EnfHeap) (s : StatusObj) : Option (List EnforcementEvent) :=
  (lookupA h.arrays s.events.arrRef).map (fun a => a.take s.events.len)

/-- The stored status of the concrete snapshot scenario. -/
def exStoredStatus : StatusObj :=
  { decisionId := "d-1", status := .running, progress := 0,
    message := "Enforcement in progress", startedAt := 1, completedAt := none,
    detailsRef := 0, events := { arrRef := 1, len := 1 } }

/-- The enforcer's status map of the concrete snapshot scenario. -/
def exEnfMap : List (String × StatusObj) := [("d-1", exStoredStatus)]

/-- The heap of the concrete snapshot scenario: an empty details map at
reference 0 and a one-event backing array at reference 1. -/
def exHeap : EnfHeap :=
  { maps := [(0, [])],
    arrays := [(1, [{ etype := "started", message := "Enforcement started",
                      timestamp := 1, data := [] }])] }

/-- The event a caller writes into slot 0 of the returned Events slice. -/
def exMutEvent : EnforcementEvent :=
  { etype := "tampered", message := "caller wrote this", timestamp := 9, data := [] }

end Snapshot

end KCloud

/-! ## Theorems -/

namespace KCloud

namespace Validator

/-- Success of the per-objective validation loop forces every listed objective
to have non-empty type and target and weight in `(0, 1]`. -/
theorem validateObjectivesLoop_sound {l : List Objective}
    (h : validateObjectivesLoop l = none) :
    ∀ o ∈ l, o.otype ≠ "" ∧ 0 < o.weight ∧ o.weight ≤ 1 ∧ o.target ≠ "" := by
  induction l with
  | nil => intro o ho; cases ho
  | cons a rest ih =>
    intro o ho
    unfold validateObjectivesLoop at h
    cases hva : validateObjective a with
    | some e => rw [hva] at h; cases h
    | none =>
      rw [hva] at h
      cases ho with
      | tail _ ho => exact ih h o ho
      | head =>
        unfold validateObjective at hva
        split_ifs at hva with h1 h2 h3
        push_neg at h2
        exact ⟨h1, h2.1, h2.2, h3⟩

/-- Success of `validateObjectives` forces a non-empty list, per-objective
bounds, and a weight sum in `[0.99, 1.01]`. -/
theorem validateObjectives_sound {l : List Objective}
    (h : validateObjectives l = none) :
    l ≠ [] ∧ (∀ o ∈ l, 0 < o.weight ∧ o.weight ≤ 1) ∧
      99 / 100 ≤ weightSum l ∧ weightSum l ≤ 101 / 100 := by
  unfold validateObjectives at h
  split at h
  · cases h
  · next hlen =>
    cases hloop : validateObjectivesLoop l with
    | some e => rw [hloop] at h; cases h
    | none =>
      rw [hloop] at h
      simp only at h
      split at h
      · cases h
      · split at h
        · cases h
        · next _ hrange =>
          push_neg at hrange
          refine ⟨?_, ?_, hrange.1, hrange.2⟩
          · intro hnil; exact hlen (by simp [hnil])
          · intro o ho
            have := validateObjectivesLoop_sound hloop o ho
            exact ⟨this.2.1, this.2.2.1⟩

/-- Evaluation of `validateObjectives` on the single weight-1 objective of
the sample CostOptimization policy. -/
theorem validateObjectives_exCost :
    validateObjectives [{ otype := "cost-reduction", weight := 1, target := "20%" }] = none := by
  unfold validateObjectives validateObjectivesLoop validateObjective weightSum
  norm_num
  rfl

/-- Evaluation helper: `validateCostOptimizationPolicy` succeeds when each of
its component validators succeeds. -/
theorem validateCostOptimizationPolicy_eval {p : Policy} {sp : PolicySpec}
    (hsp : p.spec = some sp)
    (h1 : validateObjectives sp.objectives = none)
    (h2 : validateConstraints sp.constraints = none)
    (h3 : validateRules sp.rules = none)
    (h4 : validatePolicyActions sp.actions = none) :
    validateCostOptimizationPolicy p = none := by
  unfold validateCostOptimizationPolicy
  simp only [hsp, h1, h2, h3, h4]

/-- Evaluation helper: `ValidatePolicy` succeeds on a CostOptimization policy
with valid metadata and valid cost-optimization spec. -/
theorem ValidatePolicy_costOpt_eval {p : Policy}
    (hm : validateMetadata p.metadata = none)
    (hc : p.ptype = .costOptimization)
    (hcost : validateCostOptimizationPolicy p = none) :
    ValidatePolicy (some p) = none := by
  simp only [ValidatePolicy, hm, hc, hcost]

end Validator

/-- C6: the claim that the weight-sum rule holds "for every policy kind, not
only CostOptimization" fails on the code: `ValidatePolicy` accepts an
Automation policy whose objective weights sum to 1/2, which is outside
`[0.99, 1.01]`.  (`validateAutomationPolicy` performs no objective checks.) -/
theorem C6_counterexample :
    Validator.ValidatePolicy (some Validator.exAutomationPolicy) = none ∧
      Validator.weightSum Validator.exAutomationObjectives < 99 / 100 := by
  constructor
  · rfl
  · unfold Validator.weightSum Validator.exAutomationObjectives
    norm_num

/-- C6 (amended): for every policy of kind CostOptimization that
`ValidatePolicy` accepts, the spec is present, the objective list is
non-empty, each weight lies in `(0, 1]`, and the weights sum to a value in
`[0.99, 1.01]`.  For other policy kinds the objective checks are not
performed. -/
theorem C6_cost_optimization_weight_sum (p : Validator.Policy)
    (hok : Validator.ValidatePolicy (some p) = none)
    (hc : p.ptype = .costOptimization) :
    ∃ sp, p.spec = some sp ∧
      sp.objectives ≠ [] ∧
      (∀ o ∈ sp.objectives, 0 < o.weight ∧ o.weight ≤ 1) ∧
      99 / 100 ≤ Validator.weightSum sp.objectives ∧
      Validator.weightSum sp.objectives ≤ 101 / 100 := by
  simp only [Validator.ValidatePolicy, hc] at hok
  cases hmeta : Validator.validateMetadata p.metadata with
  | some e => simp only [hmeta] at hok; exact Option.noConfusion hok
  | none =>
    simp only [hmeta] at hok
    cases hcost : Validator.validateCostOptimizationPolicy p with
    | some e => simp only [hcost] at hok; exact Option.noConfusion hok
    | none =>
      unfold Validator.validateCostOptimizationPolicy at hcost
      cases hsp : p.spec with
      | none => simp only [hsp] at hcost; exact Option.noConfusion hcost
      | some sp =>
        simp only [hsp] at hcost
        cases hobj : Validator.validateObjectives sp.objectives with
        | some e => simp only [hobj] at hcost; exact Option.noConfusion hcost
        | none =>
          obtain ⟨h1, h2, h3, h4⟩ := Validator.validateObjectives_sound hobj
          exact ⟨sp, rfl, h1, h2, h3, h4⟩

/-- Witness for C6's amended theorem at a concrete accepted policy. -/
theorem C6_cost_optimization_weight_sum_witness :
    ∃ sp, Validator.exCostPolicy.spec = some sp ∧
      sp.objectives ≠ [] ∧
      (∀ o ∈ sp.objectives, 0 < o.weight ∧ o.weight ≤ 1) ∧
      99 / 100 ≤ Validator.weightSum sp.objectives ∧
      Validator.weightSum sp.objectives ≤ 101 / 100 :=
  C6_cost_optimization_weight_sum Validator.exCostPolicy
    (Validator.ValidatePolicy_costOpt_eval (by rfl) rfl
      (Validator.validateCostOptimizationPolicy_eval rfl
        Validator.validateObjectives_exCost rfl rfl rfl))
    rfl

namespace ExprValidator

/-- Characterization of a successful literal strip. -/
theorem stripLit_eq_some (kw : List Char) :
    ∀ cs rest, stripLit kw cs = some rest ↔ cs = kw ++ rest := by
  induction kw with
  | nil =>
    intro cs rest
    simp [stripLit, eq_comm]
  | cons p ps ih =>
    intro cs rest
    cases cs with
    | nil => simp [stripLit]
    | cons c cs' =>
      by_cases hpc : p = c
      · subst hpc
        simp [stripLit, ih]
      · simp [stripLit, hpc]
        intro h _
        exact hpc h.symm

/-- Characterization of `isSome` for a literal strip. -/
theorem stripLit_isSome (kw cs : List Char) :
    (stripLit kw cs).isSome = true ↔ ∃ post, cs = kw ++ post := by
  cases h : stripLit kw cs with
  | none =>
    simp only [Option.isSome_none, Bool.false_eq_true, false_iff]
    rintro ⟨post, rfl⟩
    have := (stripLit_eq_some kw (kw ++ post) post).mpr rfl
    rw [h] at this; cases this
  | some rest =>
    simp only [Option.isSome_some, true_iff]
    exact ⟨rest, (stripLit_eq_some kw cs rest).mp h⟩

/-- Characterization of `kwHere`. -/
theorem kwHere_iff (kws : List (List Char)) (cs : List Char) :
    kwHere kws cs = true ↔ ∃ kw ∈ kws, ∃ post, cs = kw ++ post := by
  unfold kwHere
  rw [List.any_eq_true]
  constructor
  · rintro ⟨kw, hkw, hsome⟩
    exact ⟨kw, hkw, (stripLit_isSome kw cs).mp hsome⟩
  · rintro ⟨kw, hkw, post, heq⟩
    exact ⟨kw, hkw, (stripLit_isSome kw cs).mpr ⟨post, heq⟩⟩

/-- Decomposition of a dot-keyword occurrence over a cons cell. -/
theorem dotOcc_cons (kws : List (List Char)) (c : Char) (cs : List Char) :
    DotOcc kws (c :: cs) ↔
      (c = '.' ∧ ∃ kw ∈ kws, ∃ post, cs = kw ++ post) ∨ DotOcc kws cs := by
  constructor
  · rintro ⟨pre, kw, post, hkw, heq⟩
    cases pre with
    | nil =>
      injection heq with h1 h2
      exact Or.inl ⟨h1, kw, hkw, post, h2⟩
    | cons a pre' =>
      injection heq with h1 h2
      exact Or.inr ⟨pre', kw, post, hkw, h2⟩
  · rintro (⟨rfl, kw, hkw, post, rfl⟩ | ⟨pre, kw, post, hkw, rfl⟩)
    · exact ⟨[], kw, post, hkw, rfl⟩
    · exact ⟨c :: pre, kw, post, hkw, rfl⟩

/-- The dot-pattern scanner agrees with the declarative occurrence. -/
theorem scanDotKw_iff (kws : List (List Char)) :
    ∀ cs, scanDotKw kws cs = true ↔ DotOcc kws cs := by
  intro cs
  induction cs with
  | nil =>
    constructor
    · intro h; cases h
    · rintro ⟨pre, kw, post, _, heq⟩
      have hlen := congrArg List.length heq
      simp [List.length_append] at hlen
      exact absurd hlen (by omega)
  | cons c cs' ih =>
    rw [scanDotKw, dotOcc_cons]
    rw [Bool.or_eq_true, Bool.and_eq_true, beq_iff_eq, kwHere_iff, ih]

/-- Every character list splits into its maximal space prefix and
`dropSpaces` of itself. -/
theorem dropSpaces_decomp (cs : List Char) :
    ∃ sp, cs = sp ++ dropSpaces cs ∧ ∀ c ∈ sp, isSpaceChar c = true := by
  induction cs with
  | nil => exact ⟨[], rfl, by simp⟩
  | cons c cs' ih =>
    by_cases hc : isSpaceChar c = true
    · obtain ⟨sp, heq, hsp⟩ := ih
      refine ⟨c :: sp, ?_, ?_⟩
      · simp only [dropSpaces, hc, if_true, List.cons_append]
        exact congrArg (c :: ·) heq
      · intro x hx
        rcases List.mem_cons.mp hx with rfl | hx
        · exact hc
        · exact hsp x hx
    · refine ⟨[], ?_, by simp⟩
      simp [dropSpaces, hc]

/-- Dropping spaces skips any all-space prefix. -/
theorem dropSpaces_append_spaces :
    ∀ (sp rest : List Char), (∀ c ∈ sp, isSpaceChar c = true) →
      dropSpaces (sp ++ rest) = dropSpaces rest := by
  intro sp
  induction sp with
  | nil => intro rest _; rfl
  | cons c sp' ih =>
    intro rest hsp
    have hc : isSpaceChar c = true := hsp c (by simp)
    simp only [List.cons_append, dropSpaces, hc, if_true]
    exact ih rest fun x hx => hsp x (by simp [hx])

/-- Dropping spaces stops at a non-space head. -/
theorem dropSpaces_nonspace (c : Char) (cs : List Char) (hc : isSpaceChar c = false) :
    dropSpaces (c :: cs) = c :: cs := by
  simp [dropSpaces, hc]

/-- Characterization of `callHere` for a non-space delimiter. -/
theorem callHere_iff (kws : List (List Char)) (delim : Char)
    (hd : isSpaceChar delim = false) (cs : List Char) :
    callHere kws delim cs = true ↔
      ∃ kw ∈ kws, ∃ sp post, cs = kw ++ sp ++ delim :: post ∧
        ∀ c ∈ sp, isSpaceChar c = true := by
  unfold callHere
  rw [List.any_eq_true]
  constructor
  · rintro ⟨kw, hkw, hm⟩
    cases hstrip : stripLit kw cs with
    | none =>
      rw [hstrip] at hm
      exact Bool.noConfusion hm
    | some rest =>
      rw [hstrip] at hm
      have hm1 : (match dropSpaces rest with
        | [] => false
        | d :: _ => d == delim) = true := hm
      cases hds : dropSpaces rest with
      | nil =>
        rw [hds] at hm1
        exact Bool.noConfusion hm1
      | cons d rest' =>
        rw [hds] at hm1
        have hdd : d = delim := by simpa using hm1
        obtain ⟨sp, hrest, hsp⟩ := dropSpaces_decomp rest
        refine ⟨kw, hkw, sp, rest', ?_, hsp⟩
        have hcs := (stripLit_eq_some kw cs rest).mp hstrip
        rw [hcs, hrest, hds, hdd]
        simp [List.append_assoc]
  · rintro ⟨kw, hkw, sp, post, heq, hsp⟩
    refine ⟨kw, hkw, ?_⟩
    have hstrip : stripLit kw cs = some (sp ++ delim :: post) :=
      (stripLit_eq_some kw cs _).mpr (by rw [heq, List.append_assoc])
    rw [hstrip]
    show (match dropSpaces (sp ++ delim :: post) with
      | [] => false
      | d :: _ => d == delim) = true
    rw [dropSpaces_append_spaces sp _ hsp, dropSpaces_nonspace delim post hd]
    simp

/-- The boundary-call scanner agrees with the declarative occurrence,
generalized over the previous-character context. -/
theorem scanCallKw_iff (kws : List (List Char)) (delim : Char)
    (hd : isSpaceChar delim = false) :
    ∀ (cs : List Char) (prev : Option Char),
      scanCallKw kws delim prev cs = true ↔
        ∃ pre kw sp post, kw ∈ kws ∧
          cs = pre ++ kw ++ sp ++ delim :: post ∧
          (∀ c ∈ sp, isSpaceChar c = true) ∧
          ((pre = [] ∧ boundaryOk prev = true) ∨
            ∃ pre0 p, pre = pre0 ++ [p] ∧ isWordChar p = false) := by
  intro cs
  induction cs with
  | nil =>
    intro prev
    constructor
    · intro h; cases h
    · rintro ⟨pre, kw, sp, post, _, heq, _, _⟩
      have hlen := congrArg List.length heq
      simp [List.length_append] at hlen
      exact absurd hlen (by omega)
  | cons c cs' ih =>
    intro prev
    rw [scanCallKw, Bool.or_eq_true, Bool.and_eq_true]
    constructor
    · rintro (⟨hb, hc⟩ | h2)
      · obtain ⟨kw, hkw, sp, post, heq, hsp⟩ := (callHere_iff kws delim hd (c :: cs')).mp hc
        exact ⟨[], kw, sp, post, hkw, by simpa using heq, hsp, Or.inl ⟨rfl, hb⟩⟩
      · obtain ⟨pre, kw, sp, post, hkw, heq, hsp, hb⟩ := (ih (some c)).mp h2
        refine ⟨c :: pre, kw, sp, post, hkw, by rw [heq]; rfl, hsp, ?_⟩
        rcases hb with ⟨rfl, hbo⟩ | ⟨pre0, p, rfl, hp⟩
        · refine Or.inr ⟨[], c, by simp, ?_⟩
          simpa [boundaryOk] using hbo
        · exact Or.inr ⟨c :: pre0, p, by simp, hp⟩
    · rintro ⟨pre, kw, sp, post, hkw, heq, hsp, hb⟩
      cases pre with
      | nil =>
        rcases hb with ⟨_, hbo⟩ | ⟨pre0, p, hpre, _⟩
        · left
          exact ⟨hbo, (callHere_iff kws delim hd (c :: cs')).mpr
            ⟨kw, hkw, sp, post, by simpa using heq, hsp⟩⟩
        · simp at hpre
      | cons a pre' =>
        right
        apply (ih (some c)).mpr
        injection heq with h1 h2
        refine ⟨pre', kw, sp, post, hkw, h2, hsp, ?_⟩
        rcases hb with ⟨habs, _⟩ | ⟨pre0, p, hpre, hp⟩
        · exact absurd habs (by simp)
        · cases pre0 with
          | nil =>
            simp at hpre
            left
            refine ⟨hpre.2, ?_⟩
            rw [h1, hpre.1]
            simp [boundaryOk, hp]
          | cons b pre0' =>
            injection hpre with hb1 hb2
            exact Or.inr ⟨pre0', p, hb2, hp⟩

/-- The substring scanner agrees with the declarative occurrence. -/
theorem containsSub_iff (needle : List Char) :
    ∀ cs, containsSub needle cs = true ↔ SubOcc needle cs := by
  intro cs
  induction cs with
  | nil =>
    rw [containsSub]
    constructor
    · intro h
      have hne : needle = [] := by simpa using h
      exact ⟨[], [], by simp [hne]⟩
    · rintro ⟨pre, post, heq⟩
      have hlen := congrArg List.length heq
      simp [List.length_append] at hlen
      have : needle = [] := List.eq_nil_of_length_eq_zero (by omega)
      simp [this]
  | cons c cs' ih =>
    rw [containsSub, Bool.or_eq_true, stripLit_isSome, ih]
    constructor
    · rintro (⟨post, heq⟩ | ⟨pre, post, heq⟩)
      · exact ⟨[], post, by simpa using heq⟩
      · exact ⟨c :: pre, post, by rw [heq]; rfl⟩
    · rintro ⟨pre, post, heq⟩
      cases pre with
      | nil => exact Or.inl ⟨post, by simpa using heq⟩
      | cons a pre' =>
        injection heq with h1 h2
        exact Or.inr ⟨pre', post, by rw [h2]; rfl⟩

/-- The empty list is balanced from counter 0 only; generally the counter
must be zero. -/
theorem balancedFrom_nil (openC closeC : Char) (k : Int) (hk : 0 ≤ k) :
    BalancedFrom openC closeC k [] ↔ k = 0 := by
  unfold BalancedFrom
  constructor
  · rintro ⟨_, htot⟩
    simpa using htot
  · rintro rfl
    exact ⟨fun n => by simp, by simp⟩

/-- Step lemma: an opening character increments the counter. -/
theorem balancedFrom_open (openC closeC : Char) (hne : openC ≠ closeC)
    (k : Int) (hk : 0 ≤ k) (cs : List Char) :
    BalancedFrom openC closeC k (openC :: cs) ↔ BalancedFrom openC closeC (k + 1) cs := by
  unfold BalancedFrom
  have hcnt1 : ∀ l : List Char, (openC :: l).count openC = l.count openC + 1 :=
    fun l => List.count_cons_self _ _
  have hcnt2 : ∀ l : List Char, (openC :: l).count closeC = l.count closeC :=
    fun l => List.count_cons_of_ne (Ne.symm hne) _
  constructor
  · rintro ⟨hpre, htot⟩
    refine ⟨fun n => ?_, ?_⟩
    · have h := hpre (n + 1)
      rw [List.take_succ_cons, hcnt1, hcnt2] at h
      push_cast at h ⊢
      omega
    · rw [hcnt1, hcnt2] at htot
      push_cast at htot ⊢
      omega
  · rintro ⟨hpre, htot⟩
    refine ⟨fun n => ?_, ?_⟩
    · cases n with
      | zero => simpa using hk
      | succ m =>
        have h := hpre m
        rw [List.take_succ_cons, hcnt1, hcnt2]
        push_cast at h ⊢
        omega
    · rw [hcnt1, hcnt2]
      push_cast at htot ⊢
      omega

/-- Step lemma: a closing character requires a positive counter and
decrements it. -/
theorem balancedFrom_close (openC closeC : Char) (hne : openC ≠ closeC)
    (k : Int) (hk : 0 ≤ k) (cs : List Char) :
    BalancedFrom openC closeC k (closeC :: cs) ↔
      1 ≤ k ∧ BalancedFrom openC closeC (k - 1) cs := by
  unfold BalancedFrom
  have hcnt1 : ∀ l : List Char, (closeC :: l).count openC = l.count openC :=
    fun l => List.count_cons_of_ne hne _
  have hcnt2 : ∀ l : List Char, (closeC :: l).count closeC = l.count closeC + 1 :=
    fun l => List.count_cons_self _ _
  constructor
  · rintro ⟨hpre, htot⟩
    have hk1 : 1 ≤ k := by
      have h := hpre 1
      simp only [List.take_succ_cons, List.take_zero] at h
      rw [hcnt1, hcnt2] at h
      simp at h
      omega
    refine ⟨hk1, fun n => ?_, ?_⟩
    · have h := hpre (n + 1)
      rw [List.take_succ_cons, hcnt1, hcnt2] at h
      push_cast at h ⊢
      omega
    · rw [hcnt1, hcnt2] at htot
      push_cast at htot ⊢
      omega
  · rintro ⟨hk1, hpre, htot⟩
    refine ⟨fun n => ?_, ?_⟩
    · cases n with
      | zero => simpa using hk
      | succ m =>
        have h := hpre m
        rw [List.take_succ_cons, hcnt1, hcnt2]
        push_cast at h ⊢
        omega
    · rw [hcnt1, hcnt2]
      push_cast at htot ⊢
      omega

/-- Step lemma: any other character leaves the counter untouched. -/
theorem balancedFrom_other (openC closeC c : Char) (ho : c ≠ openC) (hc : c ≠ closeC)
    (k : Int) (hk : 0 ≤ k) (cs : List Char) :
    BalancedFrom openC closeC k (c :: cs) ↔ BalancedFrom openC closeC k cs := by
  unfold BalancedFrom
  have hcnt1 : ∀ l : List Char, (c :: l).count openC = l.count openC :=
    fun l => List.count_cons_of_ne (Ne.symm ho) _
  have hcnt2 : ∀ l : List Char, (c :: l).count closeC = l.count closeC :=
    fun l => List.count_cons_of_ne (Ne.symm hc) _
  constructor
  · rintro ⟨hpre, htot⟩
    refine ⟨fun n => ?_, ?_⟩
    · have h := hpre (n + 1)
      rw [List.take_succ_cons, hcnt1, hcnt2] at h
      exact h
    · rw [hcnt1, hcnt2] at htot
      exact htot
  · rintro ⟨hpre, htot⟩
    refine ⟨fun n => ?_, ?_⟩
    · cases n with
      | zero => simpa using hk
      | succ m =>
        have h := hpre m
        rw [List.take_succ_cons, hcnt1, hcnt2]
        exact h
    · rw [hcnt1, hcnt2]
      exact htot

/-- The Go balance counter agrees with the declarative generalized
balancedness for every non-negative starting counter. -/
theorem balancedAux_iff (openC closeC : Char) (hne : openC ≠ closeC) :
    ∀ (cs : List Char) (k : Int), 0 ≤ k →
      (balancedAux openC closeC k cs = true ↔ BalancedFrom openC closeC k cs) := by
  intro cs
  induction cs with
  | nil =>
    intro k hk
    rw [balancedAux, balancedFrom_nil openC closeC k hk]
    simp
  | cons c cs' ih =>
    intro k hk
    rw [balancedAux]
    by_cases hov : c = openC
    · subst hov
      rw [if_pos (by simp), ih (k + 1) (by omega),
        balancedFrom_open c closeC hne k hk]
    · rw [if_neg (by simpa using hov)]
      by_cases hcv : c = closeC
      · subst hcv
        rw [if_pos (by simp)]
        by_cases hk0 : k - 1 < 0
        · rw [if_pos hk0, balancedFrom_close openC c hne k hk]
          constructor
          · intro h; cases h
          · rintro ⟨h1, _⟩
            exact absurd h1 (by omega)
        · rw [if_neg hk0, ih (k - 1) (by omega),
            balancedFrom_close openC c hne k hk]
          constructor
          · intro h; exact ⟨by omega, h⟩
          · rintro ⟨_, h⟩; exact h
      · rw [if_neg (by simpa using hcv), ih k hk,
          balancedFrom_other openC closeC c hov hcv k hk]

/-- The Go balance check from counter zero is exactly declarative
balancedness. -/
theorem balancedAux_zero_iff (openC closeC : Char) (hne : openC ≠ closeC)
    (cs : List Char) :
    balancedAux openC closeC 0 cs = true ↔ BalancedOcc openC closeC cs := by
  rw [balancedAux_iff openC closeC hne cs 0 le_rfl]
  unfold BalancedFrom BalancedOcc
  constructor
  · rintro ⟨hpre, htot⟩
    refine ⟨fun n => ?_, ?_⟩
    · have h := hpre n; omega
    · omega
  · rintro ⟨hpre, htot⟩
    refine ⟨fun n => ?_, ?_⟩
    · have h := hpre n; omega
    · omega

/-- Specialization of the boundary-call scanner characterization to the
start-of-input context, matching `CallOcc`. -/
theorem scanCallKw_none_iff (kws : List (List Char)) (delim : Char)
    (hd : isSpaceChar delim = false) (cs : List Char) :
    scanCallKw kws delim none cs = true ↔ CallOcc kws delim cs := by
  rw [scanCallKw_iff kws delim hd cs none]
  unfold CallOcc
  constructor
  · rintro ⟨pre, kw, sp, post, hkw, heq, hsp, hb⟩
    refine ⟨pre, kw, sp, post, hkw, heq, hsp, ?_⟩
    rcases hb with ⟨hpre, _⟩ | h
    · exact Or.inl hpre
    · exact Or.inr h
  · rintro ⟨pre, kw, sp, post, hkw, heq, hsp, hb⟩
    refine ⟨pre, kw, sp, post, hkw, heq, hsp, ?_⟩
    rcases hb with hpre | h
    · exact Or.inl ⟨hpre, rfl⟩
    · exact Or.inr h

end ExprValidator

/-- C7: the claim fails on the code at two concrete inputs:
`"workload == exec"` contains the forbidden identifier `exec` yet passes the
content check (the dangerous patterns reject it only in member-access or call
position), and `"time.hour > 8"` references `time` — allowed by the claim —
yet is rejected because the code's required-reference set is only
workload/policy/cluster. -/
theorem C7_counterexample :
    ExprValidator.containsSub "exec".data ExprValidator.exBareForbidden.data = true ∧
      ExprValidator.validateExpressionContent ExprValidator.exBareForbidden = none ∧
      ExprValidator.validateExpressionContent ExprValidator.exTimeOnly =
        some "expression must reference at least one of: workload, policy, cluster" :=
  ⟨by decide, by decide, by decide⟩

/-- C7 (amended): the compile-time content check accepts exactly the
expressions with no dangerous-position forbidden identifier (member access
`.kw` for exec/system/eval/import/__; a call `kw(` at a word boundary for
exec/system/eval/import/__ and panic/recover/defer; a qualifier `kw.` at a
word boundary for os/sys/runtime), containing at least one of the substrings
`workload`, `policy`, `cluster` (`time` does not count), with balanced
parentheses and balanced brackets. -/
theorem C7_content_check_characterization (e : String) :
    ExprValidator.validateExpressionContent e = none ↔
      ¬ExprValidator.DotOcc ExprValidator.kwsDot e.data ∧
      ¬ExprValidator.CallOcc ExprValidator.kwsDot '(' e.data ∧
      ¬ExprValidator.CallOcc ExprValidator.kwsPkg '.' e.data ∧
      ¬ExprValidator.CallOcc ExprValidator.kwsCtl '(' e.data ∧
      (ExprValidator.SubOcc "workload".data e.data ∨
        ExprValidator.SubOcc "policy".data e.data ∨
        ExprValidator.SubOcc "cluster".data e.data) ∧
      ExprValidator.BalancedOcc '(' ')' e.data ∧
      ExprValidator.BalancedOcc '[' ']' e.data := by
  have hp1 := ExprValidator.scanDotKw_iff ExprValidator.kwsDot e.data
  have hp2 := ExprValidator.scanCallKw_none_iff ExprValidator.kwsDot '(' (by decide) e.data
  have hp3 := ExprValidator.scanCallKw_none_iff ExprValidator.kwsPkg '.' (by decide) e.data
  have hp4 := ExprValidator.scanCallKw_none_iff ExprValidator.kwsCtl '(' (by decide) e.data
  have hw := ExprValidator.containsSub_iff "workload".data e.data
  have hpo := ExprValidator.containsSub_iff "policy".data e.data
  have hcl := ExprValidator.containsSub_iff "cluster".data e.data
  have hb1 := ExprValidator.balancedAux_zero_iff '(' ')' (by decide) e.data
  have hb2 := ExprValidator.balancedAux_zero_iff '[' ']' (by decide) e.data
  unfold ExprValidator.validateExpressionContent
  split_ifs with h1 h2 h3 h4 h5 h6 h7
  · constructor
    · intro h; exact h.elim
    · rintro ⟨hn1, _, _, _, _, _, _⟩
      exact absurd (hp1.mp h1) hn1
  · constructor
    · intro h; exact h.elim
    · rintro ⟨_, hn2, _, _, _, _, _⟩
      exact absurd (hp2.mp h2) hn2
  · constructor
    · intro h; exact h.elim
    · rintro ⟨_, _, hn3, _, _, _, _⟩
      exact absurd (hp3.mp h3) hn3
  · constructor
    · intro h; exact h.elim
    · rintro ⟨_, _, _, hn4, _, _, _⟩
      exact absurd (hp4.mp h4) hn4
  · constructor
    · intro h; exact h.elim
    · rintro ⟨_, _, _, _, href, _, _⟩
      simp only [Bool.not_eq_true', Bool.or_eq_false_iff] at h5
      rcases href with hx | hx | hx
      · exact absurd (hw.mpr hx) (by simp [h5.1.1])
      · exact absurd (hpo.mpr hx) (by simp [h5.1.2])
      · exact absurd (hcl.mpr hx) (by simp [h5.2])
  · constructor
    · intro h; exact h.elim
    · rintro ⟨_, _, _, _, _, hbp, _⟩
      have hbal : ExprValidator.isBalancedParentheses e = true := hb1.mpr hbp
      simp only [Bool.not_eq_true'] at h6
      rw [h6] at hbal
      exact Bool.noConfusion hbal
  · constructor
    · intro h; exact h.elim
    · rintro ⟨_, _, _, _, _, _, hbb⟩
      have hbal : ExprValidator.isBalancedBrackets e = true := hb2.mpr hbb
      simp only [Bool.not_eq_true'] at h7
      rw [h7] at hbal
      exact Bool.noConfusion hbal
  · constructor
    · intro _
      refine ⟨fun hx => h1 (hp1.mpr hx), fun hx => h2 (hp2.mpr hx),
        fun hx => h3 (hp3.mpr hx), fun hx => h4 (hp4.mpr hx), ?_, ?_, ?_⟩
      · have h5' : (ExprValidator.containsSub "workload".data e.data ||
            ExprValidator.containsSub "policy".data e.data ||
            ExprValidator.containsSub "cluster".data e.data) = true := by
          rcases Bool.eq_false_or_eq_true (ExprValidator.containsSub "workload".data e.data ||
            ExprValidator.containsSub "policy".data e.data ||
            ExprValidator.containsSub "cluster".data e.data) with ht | hf
          · exact ht
          · exact absurd (by simp [hf]) h5
        rw [Bool.or_eq_true, Bool.or_eq_true] at h5'
        rcases h5' with (hx | hx) | hx
        · exact Or.inl (hw.mp hx)
        · exact Or.inr (Or.inl (hpo.mp hx))
        · exact Or.inr (Or.inr (hcl.mp hx))
      · refine hb1.mp ?_
        rcases Bool.eq_false_or_eq_true (ExprValidator.isBalancedParentheses e) with ht | hf
        · exact ht
        · exact absurd (by simp [hf]) h6
      · refine hb2.mp ?_
        rcases Bool.eq_false_or_eq_true (ExprValidator.isBalancedBrackets e) with ht | hf
        · exact ht
        · exact absurd (by simp [hf]) h7
    · intro _; rfl

/-- C8: the claim fails at a Schedule decision with an empty message: the
generated list contains only the Schedule action and no Notify follows,
because the Notify action is added only when `decision.Message` is
non-empty. -/
theorem C8_counterexample :
    Enforcer.exScheduleDecision.dtype = .schedule ∧
      Except.map List.length
        (Enforcer.generateActions Enforcer.exScheduleDecision Enforcer.exWorkload) =
        .ok 1 :=
  ⟨rfl, rfl⟩

/-- C8 (amended): `generateActions` maps each of the eight known decision
types to exactly the spec table's ordered (type, target, timeout)
signatures — with the Schedule row's Notify("scheduler", 30s) entry present
exactly when the decision carries a non-empty message — and returns an error
for every decision whose type is not one of the eight known types. -/
theorem C8_generate_actions_table (d : Enforcer.Decision) (w : Enforcer.Workload) :
    Except.map (List.map Enforcer.actionSig) (Enforcer.generateActions d w) =
      Enforcer.specActionTable d := by
  cases hd : d.dtype with
  | schedule =>
    by_cases hm : d.message = "" <;>
      simp [Enforcer.generateActions, Enforcer.generateScheduleActions,
        Enforcer.specActionTable, Enforcer.actionSig, hd, hm, Except.map]
  | reschedule =>
    simp [Enforcer.generateActions, Enforcer.generateRescheduleActions,
      Enforcer.specActionTable, Enforcer.actionSig, hd, Except.map]
  | migrate =>
    simp [Enforcer.generateActions, Enforcer.generateMigrateActions,
      Enforcer.specActionTable, Enforcer.actionSig, hd, Except.map]
  | scale =>
    simp [Enforcer.generateActions, Enforcer.generateScaleActions,
      Enforcer.specActionTable, Enforcer.actionSig, hd, Except.map]
  | terminate =>
    simp [Enforcer.generateActions, Enforcer.generateTerminateActions,
      Enforcer.specActionTable, Enforcer.actionSig, hd, Except.map]
  | suspend =>
    simp [Enforcer.generateActions, Enforcer.generateSuspendActions,
      Enforcer.specActionTable, Enforcer.actionSig, hd, Except.map]
  | resume =>
    simp [Enforcer.generateActions, Enforcer.generateResumeActions,
      Enforcer.specActionTable, Enforcer.actionSig, hd, Except.map]
  | optimize =>
    simp [Enforcer.generateActions, Enforcer.generateOptimizeActions,
      Enforcer.specActionTable, Enforcer.actionSig, hd, Except.map]
  | other s =>
    simp [Enforcer.generateActions, Enforcer.specActionTable, hd, Except.map]

/-- Lookup after a same-key `modifyA`. -/
theorem lookupA_modifyA_self {α β : Type} [DecidableEq α]
    (l : List (α × β)) (k : α) (f : β → β) :
    lookupA (modifyA l k f) k = (lookupA l k).map f := by
  induction l with
  | nil => rfl
  | cons p rest ih =>
    rcases p with ⟨k', v'⟩
    by_cases hk : k' = k
    · subst hk; simp [modifyA, lookupA]
    · simp [modifyA, lookupA, hk, ih]

/-- Lookup at a different key after `modifyA`. -/
theorem lookupA_modifyA_ne {α β : Type} [DecidableEq α]
    (l : List (α × β)) (k k' : α) (f : β → β) (hne : k ≠ k') :
    lookupA (modifyA l k f) k' = lookupA l k' := by
  induction l with
  | nil => rfl
  | cons p rest ih =>
    rcases p with ⟨k0, v0⟩
    by_cases hk : k0 = k
    · subst hk
      simp [modifyA, lookupA, hne]
    · simp [modifyA, lookupA, hk, ih]

/-- Lookup after a same-key `updateA`. -/
theorem lookupA_updateA_self {α β : Type} [DecidableEq α]
    (l : List (α × β)) (k : α) (v : β) :
    lookupA (updateA l k v) k = (lookupA l k).map (fun _ => v) := by
  induction l with
  | nil => rfl
  | cons p rest ih =>
    rcases p with ⟨k', v'⟩
    by_cases hk : k' = k
    · subst hk; simp [updateA, lookupA]
    · simp [updateA, lookupA, hk, ih]

/-- Lookup after a same-key `insertA` always finds the new value. -/
theorem lookupA_insertA_self {α β : Type} [DecidableEq α]
    (l : List (α × β)) (k : α) (v : β) :
    lookupA (insertA l k v) k = some v := by
  unfold insertA
  by_cases hp : (lookupA l k).isSome
  · rw [if_pos hp, lookupA_updateA_self]
    cases h : lookupA l k with
    | none => rw [h] at hp; cases hp
    | some w => simp
  · rw [if_neg hp]
    induction l with
    | nil => simp [lookupA]
    | cons p rest ih =>
      rcases p with ⟨k', v'⟩
      by_cases hk : k' = k
      · subst hk
        simp [lookupA] at hp
      · simp only [List.cons_append, lookupA, if_neg hk]
        exact ih (by simpa [lookupA, hk] using hp)

/-- C3: the claim fails on the code: `GetEnforcementStatus` returns a shallow
struct copy, so a caller writing through the returned value's `Details` map
(or an entry of its `Events` backing array) changes the enforcer's stored
status, shown here at a concrete stored status and heap. -/
theorem C3_counterexample :
    Snapshot.getEnforcementStatus Snapshot.exEnfMap "d-1" = .ok Snapshot.exStoredStatus ∧
      Snapshot.detailsView Snapshot.exHeap Snapshot.exStoredStatus = some [] ∧
      Snapshot.detailsView
        (Snapshot.mapWrite Snapshot.exHeap Snapshot.exStoredStatus.detailsRef
          "note" "caller-written")
        Snapshot.exStoredStatus = some [("note", "caller-written")] ∧
      Snapshot.eventsView
        (Snapshot.arrWrite Snapshot.exHeap Snapshot.exStoredStatus.events.arrRef 0
          Snapshot.exMutEvent)
        Snapshot.exStoredStatus = some [Snapshot.exMutEvent] :=
  ⟨rfl, rfl, rfl, rfl⟩

/-- C3 (amended): `GetEnforcementStatus` returns an error for unknown ids,
and for known ids returns a shallow struct copy equal to the stored record —
sharing its `Details` map reference — so a caller write through the returned
copy's `Details` map is visible in the stored status's view; only top-level
field reassignments on the copy leave the stored record untouched. -/
theorem C3_get_status_shallow (enf : List (String × Snapshot.StatusObj)) (id : String) :
    (lookupA enf id = none →
      Snapshot.getEnforcementStatus enf id =
        .error ("enforcement status not found for decision " ++ id)) ∧
    (∀ c, Snapshot.getEnforcementStatus enf id = .ok c → lookupA enf id = some c) ∧
    (∀ (h : Snapshot.EnfHeap) (s : Snapshot.StatusObj) (k v : String)
        (m : List (String × String)),
      Snapshot.detailsView h s = some m →
      Snapshot.detailsView (Snapshot.mapWrite h s.detailsRef k v) s =
        some (insertA m k v)) := by
  refine ⟨?_, ?_, ?_⟩
  · intro hnone
    unfold Snapshot.getEnforcementStatus
    rw [hnone]
  · intro c hc
    unfold Snapshot.getEnforcementStatus at hc
    cases hl : lookupA enf id with
    | none => rw [hl] at hc; cases hc
    | some s =>
      rw [hl] at hc
      cases hc
      rfl
  · intro h s k v m hm
    unfold Snapshot.detailsView Snapshot.mapWrite at *
    simp only [lookupA_modifyA_self, hm]
    rfl

/-- Witness for C3's amended theorem at the concrete stored map. -/
theorem C3_get_status_shallow_witness :
    (lookupA Snapshot.exEnfMap "d-1" = none →
      Snapshot.getEnforcementStatus Snapshot.exEnfMap "d-1" =
        .error ("enforcement status not found for decision " ++ "d-1")) ∧
    (∀ c, Snapshot.getEnforcementStatus Snapshot.exEnfMap "d-1" = .ok c →
      lookupA Snapshot.exEnfMap "d-1" = some c) ∧
    (∀ (h : Snapshot.EnfHeap) (s : Snapshot.StatusObj) (k v : String)
        (m : List (String × String)),
      Snapshot.detailsView h s = some m →
      Snapshot.detailsView (Snapshot.mapWrite h s.detailsRef k v) s =
        some (insertA m k v)) :=
  C3_get_status_shallow Snapshot.exEnfMap "d-1"

/-- One transaction operation preserves the commit/rollback exclusion. -/
theorem txOk_applyTxOp (t : MemStorage.MemoryTransaction)
    (h : MemStorage.TxOk t) (op : MemStorage.TxOp) :
    MemStorage.TxOk (MemStorage.applyTxOp t op) := by
  cases op <;> rcases t with ⟨m, c, r⟩ <;> cases c <;> cases r <;>
    simp_all [MemStorage.applyTxOp, MemStorage.commitT, MemStorage.rollbackT,
      MemStorage.TxOk]

/-- Any sequence of operations preserves the commit/rollback exclusion. -/
theorem txOk_applyTxOps (t : MemStorage.MemoryTransaction)
    (h : MemStorage.TxOk t) (ops : List MemStorage.TxOp) :
    MemStorage.TxOk (MemStorage.applyTxOps t ops) := by
  induction ops generalizing t with
  | nil => exact h
  | cons op ops ih => exact ih _ (txOk_applyTxOp t h op)

/-- The commit/rollback contract for any transaction that is not both
committed and rolled back. -/
theorem tx_semantics_of_ok (t : MemStorage.MemoryTransaction)
    (hok : MemStorage.TxOk t) :
    ((MemStorage.rollbackT t).2 = none →
      (MemStorage.commitT (MemStorage.rollbackT t).1).2 =
        some .errStorageOperation) ∧
    ((MemStorage.commitT t).2 = none →
      (MemStorage.rollbackT (MemStorage.commitT t).1).2 =
        some .errStorageOperation) ∧
    ((MemStorage.commitT t).2 = none →
      MemStorage.commitT (MemStorage.commitT t).1 = ((MemStorage.commitT t).1, none)) ∧
    ((MemStorage.rollbackT t).2 = none →
      MemStorage.rollbackT (MemStorage.rollbackT t).1 =
        ((MemStorage.rollbackT t).1, none)) ∧
    ((MemStorage.commitT t).2 = none →
      MemStorage.txPolicy (MemStorage.commitT t).1 = none ∧
      MemStorage.txWorkload (MemStorage.commitT t).1 = none ∧
      MemStorage.txDecision (MemStorage.commitT t).1 = none ∧
      MemStorage.txEvaluation (MemStorage.commitT t).1 = none) ∧
    ((MemStorage.rollbackT t).2 = none →
      MemStorage.txPolicy (MemStorage.rollbackT t).1 = none ∧
      MemStorage.txWorkload (MemStorage.rollbackT t).1 = none ∧
      MemStorage.txDecision (MemStorage.rollbackT t).1 = none ∧
      MemStorage.txEvaluation (MemStorage.rollbackT t).1 = none) := by
  rcases t with ⟨m, c, r⟩
  cases c <;> cases r <;>
    simp_all [MemStorage.commitT, MemStorage.rollbackT, MemStorage.txPolicy,
      MemStorage.txWorkload, MemStorage.txDecision, MemStorage.txEvaluation,
      MemStorage.TxOk]

/-- Freshly begun transactions satisfy the exclusion invariant. -/
theorem txOk_of_begin (m : MemStorage.MemoryStorageManager)
    (t0 : MemStorage.MemoryTransaction)
    (hbegin : MemStorage.beginTransaction m = .ok t0) :
    MemStorage.TxOk t0 := by
  unfold MemStorage.beginTransaction at hbegin
  by_cases hc : m.closed
  · rw [if_pos hc] at hbegin; cases hbegin
  · rw [if_neg hc] at hbegin
    cases hbegin
    simp [MemStorage.TxOk]

/-- C9: for every transaction obtained from `BeginTransaction` and any
sequence of Commit/Rollback calls, Commit after a successful Rollback and
Rollback after a successful Commit return ErrStorageOperation; a second
Commit (respectively Rollback) returns nil without changing state; and after
either a successful Commit or a successful Rollback every store accessor of
the transaction returns nil. -/
theorem C9_transaction_semantics (m : MemStorage.MemoryStorageManager)
    (t0 : MemStorage.MemoryTransaction) (ops : List MemStorage.TxOp)
    (hbegin : MemStorage.beginTransaction m = .ok t0) :
    ((MemStorage.rollbackT (MemStorage.applyTxOps t0 ops)).2 = none →
      (MemStorage.commitT (MemStorage.rollbackT (MemStorage.applyTxOps t0 ops)).1).2 =
        some .errStorageOperation) ∧
    ((MemStorage.commitT (MemStorage.applyTxOps t0 ops)).2 = none →
      (MemStorage.rollbackT (MemStorage.commitT (MemStorage.applyTxOps t0 ops)).1).2 =
        some .errStorageOperation) ∧
    ((MemStorage.commitT (MemStorage.applyTxOps t0 ops)).2 = none →
      MemStorage.commitT (MemStorage.commitT (MemStorage.applyTxOps t0 ops)).1 =
        ((MemStorage.commitT (MemStorage.applyTxOps t0 ops)).1, none)) ∧
    ((MemStorage.rollbackT (MemStorage.applyTxOps t0 ops)).2 = none →
      MemStorage.rollbackT (MemStorage.rollbackT (MemStorage.applyTxOps t0 ops)).1 =
        ((MemStorage.rollbackT (MemStorage.applyTxOps t0 ops)).1, none)) ∧
    ((MemStorage.commitT (MemStorage.applyTxOps t0 ops)).2 = none →
      MemStorage.txPolicy (MemStorage.commitT (MemStorage.applyTxOps t0 ops)).1 = none ∧
      MemStorage.txWorkload (MemStorage.commitT (MemStorage.applyTxOps t0 ops)).1 = none ∧
      MemStorage.txDecision (MemStorage.commitT (MemStorage.applyTxOps t0 ops)).1 = none ∧
      MemStorage.txEvaluation (MemStorage.commitT (MemStorage.applyTxOps t0 ops)).1 = none) ∧
    ((MemStorage.rollbackT (MemStorage.applyTxOps t0 ops)).2 = none →
      MemStorage.txPolicy (MemStorage.rollbackT (MemStorage.applyTxOps t0 ops)).1 = none ∧
      MemStorage.txWorkload (MemStorage.rollbackT (MemStorage.applyTxOps t0 ops)).1 = none ∧
      MemStorage.txDecision (MemStorage.rollbackT (MemStorage.applyTxOps t0 ops)).1 = none ∧
      MemStorage.txEvaluation (MemStorage.rollbackT (MemStorage.applyTxOps t0 ops)).1 = none) :=
  tx_semantics_of_ok (MemStorage.applyTxOps t0 ops)
    (txOk_applyTxOps t0 (txOk_of_begin m t0 hbegin) ops)

/-- Witness for C9 at the fresh transaction of the sample manager. -/
theorem C9_transaction_semantics_witness :
    ((MemStorage.rollbackT (MemStorage.applyTxOps MemStorage.exTransaction [])).2 = none →
      (MemStorage.commitT (MemStorage.rollbackT
        (MemStorage.applyTxOps MemStorage.exTransaction [])).1).2 =
        some .errStorageOperation) ∧
    ((MemStorage.commitT (MemStorage.applyTxOps MemStorage.exTransaction [])).2 = none →
      (MemStorage.rollbackT (MemStorage.commitT
        (MemStorage.applyTxOps MemStorage.exTransaction [])).1).2 =
        some .errStorageOperation) ∧
    ((MemStorage.commitT (MemStorage.applyTxOps MemStorage.exTransaction [])).2 = none →
      MemStorage.commitT (MemStorage.commitT
        (MemStorage.applyTxOps MemStorage.exTransaction [])).1 =
        ((MemStorage.commitT (MemStorage.applyTxOps MemStorage.exTransaction [])).1, none)) ∧
    ((MemStorage.rollbackT (MemStorage.applyTxOps MemStorage.exTransaction [])).2 = none →
      MemStorage.rollbackT (MemStorage.rollbackT
        (MemStorage.applyTxOps MemStorage.exTransaction [])).1 =
        ((MemStorage.rollbackT (MemStorage.applyTxOps MemStorage.exTransaction [])).1, none)) ∧
    ((MemStorage.commitT (MemStorage.applyTxOps MemStorage.exTransaction [])).2 = none →
      MemStorage.txPolicy (MemStorage.commitT
        (MemStorage.applyTxOps MemStorage.exTransaction [])).1 = none ∧
      MemStorage.txWorkload (MemStorage.commitT
        (MemStorage.applyTxOps MemStorage.exTransaction [])).1 = none ∧
      MemStorage.txDecision (MemStorage.commitT
        (MemStorage.applyTxOps MemStorage.exTransaction [])).1 = none ∧
      MemStorage.txEvaluation (MemStorage.commitT
        (MemStorage.applyTxOps MemStorage.exTransaction [])).1 = none) ∧
    ((MemStorage.rollbackT (MemStorage.applyTxOps MemStorage.exTransaction [])).2 = none →
      MemStorage.txPolicy (MemStorage.rollbackT
        (MemStorage.applyTxOps MemStorage.exTransaction [])).1 = none ∧
      MemStorage.txWorkload (MemStorage.rollbackT
        (MemStorage.applyTxOps MemStorage.exTransaction [])).1 = none ∧
      MemStorage.txDecision (MemStorage.rollbackT
        (MemStorage.applyTxOps MemStorage.exTransaction [])).1 = none ∧
      MemStorage.txEvaluation (MemStorage.rollbackT
        (MemStorage.applyTxOps MemStorage.exTransaction [])).1 = none) :=
  C9_transaction_semantics MemStorage.exManager MemStorage.exTransaction [] (by rfl)

/-- C10: after a successful Close every store accessor returns nil, Health
and BeginTransaction fail with ErrStorageConnection, and a second Close
returns nil with the manager staying closed. -/
theorem C10_close_semantics (m : MemStorage.MemoryStorageManager)
    (_hok : (MemStorage.closeM m).2 = none) :
    MemStorage.policyOf (MemStorage.closeM m).1 = none ∧
    MemStorage.workloadOf (MemStorage.closeM m).1 = none ∧
    MemStorage.decisionOf (MemStorage.closeM m).1 = none ∧
    MemStorage.evaluationOf (MemStorage.closeM m).1 = none ∧
    MemStorage.healthOf (MemStorage.closeM m).1 = some .errStorageConnection ∧
    MemStorage.beginTransaction (MemStorage.closeM m).1 = .error .errStorageConnection ∧
    MemStorage.closeM (MemStorage.closeM m).1 = ((MemStorage.closeM m).1, none) ∧
    (MemStorage.closeM m).1.closed = true := by
  by_cases hc : m.closed <;>
    simp [MemStorage.closeM, MemStorage.policyOf, MemStorage.workloadOf,
      MemStorage.decisionOf, MemStorage.evaluationOf, MemStorage.healthOf,
      MemStorage.beginTransaction, hc]

/-- Witness for C10 at the sample manager. -/
theorem C10_close_semantics_witness :
    MemStorage.policyOf (MemStorage.closeM MemStorage.exManager).1 = none ∧
    MemStorage.workloadOf (MemStorage.closeM MemStorage.exManager).1 = none ∧
    MemStorage.decisionOf (MemStorage.closeM MemStorage.exManager).1 = none ∧
    MemStorage.evaluationOf (MemStorage.closeM MemStorage.exManager).1 = none ∧
    MemStorage.healthOf (MemStorage.closeM MemStorage.exManager).1 =
      some .errStorageConnection ∧
    MemStorage.beginTransaction (MemStorage.closeM MemStorage.exManager).1 =
      .error .errStorageConnection ∧
    MemStorage.closeM (MemStorage.closeM MemStorage.exManager).1 =
      ((MemStorage.closeM MemStorage.exManager).1, none) ∧
    (MemStorage.closeM MemStorage.exManager).1.closed = true :=
  C10_close_semantics MemStorage.exManager (by rfl)

/-- C1: the claim fails on the code at a concrete interleaving: enforcing the
two-action Optimize decision, cancelling after the first action completes,
then letting the background task continue, the status is Cancelled yet a new
`action_started` event is appended after the `cancelled` event — the action
loop never observes cancellation. -/
theorem C1_counterexample :
    (Enforcer.lookupStatus Enforcer.exCancelRun.1 "d-opt").map
        (fun s => s.events.map Enforcer.EnforcementEvent.etype) =
      some ["started", "action_started", "action_completed", "cancelled",
        "action_started", "action_completed", "completed"] ∧
      (Enforcer.lookupStatus Enforcer.exCancelRun.1 "d-opt").map
        Enforcer.EnforcementStatus.status = some .cancelled :=
  ⟨rfl, rfl⟩

/-- C2: evaluation of the code at the failing input: enforce at tick 1, mark
Running, advance the clock to tick 2, cancel — the stored status has
CompletedAt set to tick 2 but Duration still unset, because the cancel
path's `StartedAt.IsZero()` guard is inverted. -/
theorem C2_cancel_duration_unset :
    (Enforcer.lookupStatus Enforcer.exCancelEarlyRun.1 "d-opt").map
        (fun s => (s.status, s.startedAt, s.completedAt, s.duration)) =
      some (.cancelled, 1, some 2, none) :=
  rfl

/-- C1 (amended): `CancelEnforcement` on a Running status succeeds, setting
the status to Cancelled with a `cancelled` event and a completion time; on a
status in any other state (in particular Completed or Failed) it is a no-op
on the state that returns a conflict error.  The background action loop does
not observe the cancel, so `action_started` events may still be appended
afterwards (see the counterexample trace). -/
theorem C1_cancel_semantics (st : Enforcer.PEState) (id : String) (ref : Nat)
    (s : Enforcer.EnforcementStatus)
    (href : lookupA st.enforcements id = some ref)
    (hs : lookupA st.statuses ref = some s) :
    (s.status = .running →
      (Enforcer.cancelEnforcement st id).2 = none ∧
      ∃ s', lookupA (Enforcer.cancelEnforcement st id).1.statuses ref = some s' ∧
        s'.status = .cancelled ∧
        s'.message = "Enforcement cancelled" ∧
        s'.completedAt = some st.now ∧
        s'.events = s.events ++
          [{ etype := "cancelled", message := "Enforcement cancelled by user",
             timestamp := st.now, data := [] }]) ∧
    (s.status ≠ .running →
      Enforcer.cancelEnforcement st id =
        (st, some ("cannot cancel enforcement in state " ++ s.status.name))) := by
  constructor
  · intro hr
    have hres : Enforcer.cancelEnforcement st id =
        (Enforcer.withStatuses st
          (updateA st.statuses ref (Enforcer.cancelledStatus s st.now)), none) := by
      unfold Enforcer.cancelEnforcement
      simp only [href, hs]
      rw [if_neg (by simp [hr])]
      rfl
    rw [hres]
    refine ⟨rfl, ⟨Enforcer.cancelledStatus s st.now, ?_, rfl, rfl, rfl, rfl⟩⟩
    show lookupA (updateA st.statuses ref (Enforcer.cancelledStatus s st.now)) ref = _
    rw [lookupA_updateA_self, hs]
    rfl
  · intro hnr
    have hres : Enforcer.cancelEnforcement st id =
        (st, some ("cannot cancel enforcement in state " ++ s.status.name)) := by
      unfold Enforcer.cancelEnforcement
      simp only [href, hs]
      rw [if_pos (by simpa using hnr)]
    exact hres

/-- Witness for C1's amended theorem at a concrete Running status. -/
theorem C1_cancel_semantics_witness :
    (Enforcer.exRunningStatus.status = .running →
      (Enforcer.cancelEnforcement Enforcer.exRunningState "d-opt").2 = none ∧
      ∃ s', lookupA (Enforcer.cancelEnforcement Enforcer.exRunningState "d-opt").1.statuses 0 =
          some s' ∧
        s'.status = .cancelled ∧
        s'.message = "Enforcement cancelled" ∧
        s'.completedAt = some Enforcer.exRunningState.now ∧
        s'.events = Enforcer.exRunningStatus.events ++
          [{ etype := "cancelled", message := "Enforcement cancelled by user",
             timestamp := Enforcer.exRunningState.now, data := [] }]) ∧
    (Enforcer.exRunningStatus.status ≠ .running →
      Enforcer.cancelEnforcement Enforcer.exRunningState "d-opt" =
        (Enforcer.exRunningState,
         some ("cannot cancel enforcement in state " ++
           Enforcer.exRunningStatus.status.name))) :=
  C1_cancel_semantics Enforcer.exRunningState "d-opt" 0 Enforcer.exRunningStatus rfl rfl

/-- C4: `Enforce` returns an error exactly when a stored status for the
decision id is Running (with the already-in-progress message); otherwise it
stores a fresh Pending status with progress 0 and no events, spawns the
background task at its first step, and returns with no action executed. -/
theorem C4_enforce_semantics (st : Enforcer.PEState) (d : Enforcer.Decision) :
    ((Enforcer.enforce st d).2.1.isSome ↔
      ∃ s, Enforcer.lookupStatus st d.id = some s ∧ s.status = .running) ∧
    ((Enforcer.enforce st d).2.1.isSome →
      (Enforcer.enforce st d).2.1 =
        some ("enforcement already in progress for decision " ++ d.id) ∧
      (Enforcer.enforce st d).1 = st ∧ (Enforcer.enforce st d).2.2 = none) ∧
    ((∀ s, Enforcer.lookupStatus st d.id = some s → s.status ≠ .running) →
      (Enforcer.enforce st d).2.1 = none ∧
      (Enforcer.enforce st d).2.2 =
        some { decision := d, statusRef := st.nextRef, pc := .setRunning } ∧
      (∃ s', Enforcer.lookupStatus (Enforcer.enforce st d).1 d.id = some s' ∧
        s'.status = .pending ∧ s'.progress = 0 ∧ s'.events = [] ∧
        s'.message = "Enforcement pending" ∧ s'.startedAt = st.now ∧
        s'.completedAt = none ∧ s'.duration = none) ∧
      (Enforcer.enforce st d).1.executed = st.executed) := by
  have hcreate : ∀ _h : True,
      (Enforcer.enforceCreate st d).2.1 = none ∧
      (Enforcer.enforceCreate st d).2.2 =
        some { decision := d, statusRef := st.nextRef, pc := .setRunning } ∧
      (∃ s', Enforcer.lookupStatus (Enforcer.enforceCreate st d).1 d.id = some s' ∧
        s'.status = .pending ∧ s'.progress = 0 ∧ s'.events = [] ∧
        s'.message = "Enforcement pending" ∧ s'.startedAt = st.now ∧
        s'.completedAt = none ∧ s'.duration = none) ∧
      (Enforcer.enforceCreate st d).1.executed = st.executed := by
    intro _
    refine ⟨rfl, rfl, ⟨Enforcer.freshStatus d st.now, ?_, rfl, rfl, rfl, rfl, rfl, rfl, rfl⟩, rfl⟩
    unfold Enforcer.lookupStatus Enforcer.enforceCreate
    simp [lookupA_insertA_self, lookupA]
  cases hls : Enforcer.lookupStatus st d.id with
  | some s =>
    by_cases hr : s.status = .running
    · have hres : Enforcer.enforce st d =
          (st, some ("enforcement already in progress for decision " ++ d.id), none) := by
        unfold Enforcer.enforce
        simp only [hls]
        rw [if_pos hr]
      rw [hres]
      exact ⟨⟨fun _ => ⟨s, rfl, hr⟩, fun _ => rfl⟩, fun _ => ⟨rfl, rfl, rfl⟩,
        fun hnr => absurd hr (hnr s rfl)⟩
    · have hres : Enforcer.enforce st d = Enforcer.enforceCreate st d := by
        unfold Enforcer.enforce
        simp only [hls]
        rw [if_neg hr]
      rw [hres]
      refine ⟨⟨fun hsome => ?_, ?_⟩, fun hsome => ?_, fun _ => hcreate trivial⟩
      · rw [show (Enforcer.enforceCreate st d).2.1 = none from rfl] at hsome
        cases hsome
      · rintro ⟨s1, hs1, hr1⟩
        cases hs1
        exact absurd hr1 hr
      · rw [show (Enforcer.enforceCreate st d).2.1 = none from rfl] at hsome
        cases hsome
  | none =>
    have hres : Enforcer.enforce st d = Enforcer.enforceCreate st d := by
      unfold Enforcer.enforce
      simp only [hls]
    rw [hres]
    refine ⟨⟨fun hsome => ?_, ?_⟩, fun hsome => ?_, fun _ => hcreate trivial⟩
    · rw [show (Enforcer.enforceCreate st d).2.1 = none from rfl] at hsome
      cases hsome
    · rintro ⟨s1, hs1, _⟩
      cases hs1
    · rw [show (Enforcer.enforceCreate st d).2.1 = none from rfl] at hsome
      cases hsome

/-- Witness for C4 at the initial sample state (no status stored yet). -/
theorem C4_enforce_semantics_witness :
    ((Enforcer.enforce Enforcer.exInitialState Enforcer.exOptimizeDecision).2.1.isSome ↔
      ∃ s, Enforcer.lookupStatus Enforcer.exInitialState Enforcer.exOptimizeDecision.id =
          some s ∧ s.status = .running) ∧
    ((Enforcer.enforce Enforcer.exInitialState Enforcer.exOptimizeDecision).2.1.isSome →
      (Enforcer.enforce Enforcer.exInitialState Enforcer.exOptimizeDecision).2.1 =
        some ("enforcement already in progress for decision " ++
          Enforcer.exOptimizeDecision.id) ∧
      (Enforcer.enforce Enforcer.exInitialState Enforcer.exOptimizeDecision).1 =
        Enforcer.exInitialState ∧
      (Enforcer.enforce Enforcer.exInitialState Enforcer.exOptimizeDecision).2.2 = none) ∧
    ((∀ s, Enforcer.lookupStatus Enforcer.exInitialState Enforcer.exOptimizeDecision.id =
        some s → s.status ≠ .running) →
      (Enforcer.enforce Enforcer.exInitialState Enforcer.exOptimizeDecision).2.1 = none ∧
      (Enforcer.enforce Enforcer.exInitialState Enforcer.exOptimizeDecision).2.2 =
        some { decision := Enforcer.exOptimizeDecision,
               statusRef := Enforcer.exInitialState.nextRef, pc := .setRunning } ∧
      (∃ s', Enforcer.lookupStatus
          (Enforcer.enforce Enforcer.exInitialState Enforcer.exOptimizeDecision).1
          Enforcer.exOptimizeDecision.id = some s' ∧
        s'.status = .pending ∧ s'.progress = 0 ∧ s'.events = [] ∧
        s'.message = "Enforcement pending" ∧
        s'.startedAt = Enforcer.exInitialState.now ∧
        s'.completedAt = none ∧ s'.duration = none) ∧
      (Enforcer.enforce Enforcer.exInitialState Enforcer.exOptimizeDecision).1.executed =
        Enforcer.exInitialState.executed) :=
  C4_enforce_semantics Enforcer.exInitialState Enforcer.exOptimizeDecision

/-- Lookup after a same-key `modifyA` of a known entry. -/
theorem lookupA_modifyA_some {α β : Type} [DecidableEq α] {l : List (α × β)}
    {k : α} {v : β} (h : lookupA l k = some v) (f : β → β) :
    lookupA (modifyA l k f) k = some (f v) := by
  rw [lookupA_modifyA_self, h]
  rfl

/-- Frame of `loopBlocksOk`: only the status heap and the execution log
change. -/
theorem loopBlocksOk_frame (st : Enforcer.PEState) (ref : Nat)
    (a : Enforcer.Action) (r : Enforcer.ActionResult) (i total : Nat) :
    (Enforcer.loopBlocksOk st ref a r i total).executed = st.executed ++ [a] ∧
    (Enforcer.loopBlocksOk st ref a r i total).decisions = st.decisions ∧
    (Enforcer.loopBlocksOk st ref a r i total).now = st.now ∧
    (Enforcer.loopBlocksOk st ref a r i total).workloads = st.workloads :=
  ⟨rfl, rfl, rfl, rfl⟩

/-- Frame of `loopBlocksFail`. -/
theorem loopBlocksFail_frame (st : Enforcer.PEState) (ref : Nat)
    (a : Enforcer.Action) (e : String) (i total : Nat) :
    (Enforcer.loopBlocksFail st ref a e i total).executed = st.executed ++ [a] ∧
    (Enforcer.loopBlocksFail st ref a e i total).decisions = st.decisions ∧
    (Enforcer.loopBlocksFail st ref a e i total).now = st.now ∧
    (Enforcer.loopBlocksFail st ref a e i total).workloads = st.workloads :=
  ⟨rfl, rfl, rfl, rfl⟩

/-- Frame of `runPrefix`. -/
theorem runPrefix_frame (st : Enforcer.PEState) (ref : Nat) :
    (Enforcer.runPrefix st ref).executed = st.executed ∧
    (Enforcer.runPrefix st ref).decisions = st.decisions ∧
    (Enforcer.runPrefix st ref).now = st.now ∧
    (Enforcer.runPrefix st ref).workloads = st.workloads :=
  ⟨rfl, rfl, rfl, rfl⟩

/-- Frame of `updateStatusGo`. -/
theorem updateStatusGo_frame (st : Enforcer.PEState) (ref : Nat)
    (state : Enforcer.EnforcementState) (msg : String) :
    (Enforcer.updateStatusGo st ref state msg).executed = st.executed ∧
    (Enforcer.updateStatusGo st ref state msg).decisions = st.decisions ∧
    (Enforcer.updateStatusGo st ref state msg).now = st.now :=
  ⟨rfl, rfl, rfl⟩

/-- Frame of `deferredRun`. -/
theorem deferredRun_frame (st : Enforcer.PEState) (ref : Nat) :
    (Enforcer.deferredRun st ref).executed = st.executed ∧
    (Enforcer.deferredRun st ref).decisions = st.decisions ∧
    (Enforcer.deferredRun st ref).now = st.now :=
  ⟨rfl, rfl, rfl⟩

/-- The status behind `ref` after `runPrefix`: Running, with the start
message and event, keeping the start time. -/
theorem runPrefix_lookup (st : Enforcer.PEState) (ref : Nat)
    (s : Enforcer.EnforcementStatus) (hs : lookupA st.statuses ref = some s) :
    ∃ s1, lookupA (Enforcer.runPrefix st ref).statuses ref = some s1 ∧
      s1.status = .running ∧ s1.startedAt = s.startedAt := by
  unfold Enforcer.runPrefix Enforcer.addEventGo Enforcer.modifyStatus
  exact ⟨_, lookupA_modifyA_some (lookupA_modifyA_some hs _) _, rfl, rfl⟩

/-- The status behind `ref` after a successful loop iteration: state and
start time are untouched. -/
theorem loopBlocksOk_lookup (st : Enforcer.PEState) (ref : Nat)
    (a : Enforcer.Action) (r : Enforcer.ActionResult) (i total : Nat)
    (s : Enforcer.EnforcementStatus) (hs : lookupA st.statuses ref = some s) :
    ∃ s1, lookupA (Enforcer.loopBlocksOk st ref a r i total).statuses ref = some s1 ∧
      s1.status = s.status ∧ s1.startedAt = s.startedAt := by
  unfold Enforcer.loopBlocksOk Enforcer.addEventGo Enforcer.setProgress
    Enforcer.modifyStatus
  exact ⟨_, lookupA_modifyA_some (lookupA_modifyA_some (lookupA_modifyA_some hs _) _) _,
    rfl, rfl⟩

/-- The status behind `ref` after a failing loop iteration: state untouched
and an `action_failed` event recorded. -/
theorem loopBlocksFail_lookup (st : Enforcer.PEState) (ref : Nat)
    (a : Enforcer.Action) (e : String) (i total : Nat)
    (s : Enforcer.EnforcementStatus) (hs : lookupA st.statuses ref = some s) :
    ∃ s1, lookupA (Enforcer.loopBlocksFail st ref a e i total).statuses ref = some s1 ∧
      s1.status = s.status ∧ s1.startedAt = s.startedAt ∧
      (∃ ev ∈ s1.events, ev.etype = "action_failed") := by
  unfold Enforcer.loopBlocksFail Enforcer.addEventGo Enforcer.setProgress
    Enforcer.modifyStatus
  refine ⟨_, lookupA_modifyA_some (lookupA_modifyA_some (lookupA_modifyA_some hs _) _) _,
    rfl, rfl, ⟨Enforcer.failEvent a e st.now, ?_, rfl⟩⟩
  simp

/-- The status behind `ref` after `updateStatusGo .failed`: Failed with the
failure message, terminal fields set, events untouched. -/
theorem updateStatusGo_failed_lookup (st : Enforcer.PEState) (ref : Nat)
    (msg : String) (s : Enforcer.EnforcementStatus)
    (hs : lookupA st.statuses ref = some s) :
    lookupA (Enforcer.updateStatusGo st ref .failed msg).statuses ref =
      some { s with status := .failed, message := msg,
                    completedAt := some st.now,
                    duration := some (st.now - s.startedAt),
                    progress := 100 } :=
  lookupA_modifyA_some hs _

/-- Lookup after `addEventGo`: the event is appended to the record behind
the reference. -/
theorem addEventGo_lookup (st : Enforcer.PEState) (ref : Nat)
    (ev : Enforcer.EnforcementEvent) (s : Enforcer.EnforcementStatus)
    (hs : lookupA st.statuses ref = some s) :
    lookupA (Enforcer.addEventGo st ref ev).statuses ref =
      some { s with events := s.events ++ [ev] } :=
  lookupA_modifyA_some hs _

/-- The deferred block over a non-Running status: the record is unchanged
except for the appended completion event carrying the current message. -/
theorem deferredRun_not_running (st : Enforcer.PEState) (ref : Nat)
    (s : Enforcer.EnforcementStatus) (hs : lookupA st.statuses ref = some s)
    (hnr : s.status ≠ .running) :
    lookupA (Enforcer.deferredRun st ref).statuses ref =
      some { s with events := s.events ++
        [{ etype := "completed", message := s.message, timestamp := st.now, data := [] }] } := by
  have h1 : lookupA (Enforcer.modifyStatus st ref fun s =>
      if s.status = .running then
        { s with completedAt := some st.now,
                 duration := some (st.now - s.startedAt),
                 status := .completed,
                 message := "Enforcement completed successfully",
                 progress := 100 }
      else s).statuses ref = some s := by
    refine (lookupA_modifyA_some hs _).trans ?_
    rw [if_neg hnr]
  unfold Enforcer.deferredRun
  simp only [h1]
  exact addEventGo_lookup _ ref _ s h1

/-- The deferred block over a Running status: Completed with the success
message, progress 100, completion time and duration, plus the completion
event. -/
theorem deferredRun_running (st : Enforcer.PEState) (ref : Nat)
    (s : Enforcer.EnforcementStatus) (hs : lookupA st.statuses ref = some s)
    (hr : s.status = .running) :
    lookupA (Enforcer.deferredRun st ref).statuses ref =
      some { s with status := .completed,
                    message := "Enforcement completed successfully",
                    progress := 100, completedAt := some st.now,
                    duration := some (st.now - s.startedAt),
                    events := s.events ++
                      [{ etype := "completed",
                         message := "Enforcement completed successfully",
                         timestamp := st.now, data := [] }] } := by
  have h1 : lookupA (Enforcer.modifyStatus st ref fun s =>
      if s.status = .running then
        { s with completedAt := some st.now,
                 duration := some (st.now - s.startedAt),
                 status := .completed,
                 message := "Enforcement completed successfully",
                 progress := 100 }
      else s).statuses ref =
      some { s with completedAt := some st.now,
                    duration := some (st.now - s.startedAt),
                    status := .completed,
                    message := "Enforcement completed successfully",
                    progress := 100 } := by
    refine (lookupA_modifyA_some hs _).trans ?_
    rw [if_pos hr]
  unfold Enforcer.deferredRun
  simp only [h1]
  exact addEventGo_lookup _ ref _ _ h1

/-- All-success run of the action loop: no error, every action executed in
order, status state and start time untouched, the rest of the state
framed. -/
theorem execLoop_ok_run (exec : Enforcer.Action → Except String Enforcer.ActionResult)
    (ref total : Nat) :
    ∀ (acts : List Enforcer.Action) (i : Nat) (st : Enforcer.PEState)
      (s : Enforcer.EnforcementStatus),
      lookupA st.statuses ref = some s →
      (∀ b ∈ acts, ∃ r, exec b = .ok r) →
      ∃ st' s', Enforcer.execLoop exec ref total st acts i = (st', none) ∧
        lookupA st'.statuses ref = some s' ∧
        s'.status = s.status ∧ s'.startedAt = s.startedAt ∧
        st'.executed = st.executed ++ acts ∧
        st'.decisions = st.decisions ∧ st'.now = st.now := by
  intro acts
  induction acts with
  | nil =>
    intro i st s hs _
    exact ⟨st, s, rfl, hs, rfl, rfl, by simp, rfl, rfl⟩
  | cons a rest ih =>
    intro i st s hs hok
    obtain ⟨r, hr⟩ := hok a (List.mem_cons_self a rest)
    obtain ⟨s1, hs1, hstat1, hstart1⟩ := loopBlocksOk_lookup st ref a r i total s hs
    obtain ⟨st', s', hrun, hl, hst, hsa, hex, hdec, hnow⟩ :=
      ih (i + 1) (Enforcer.loopBlocksOk st ref a r i total) s1 hs1
        (fun b hb => hok b (List.mem_cons_of_mem a hb))
    obtain ⟨hfex, hfdec, hfnow, _⟩ := loopBlocksOk_frame st ref a r i total
    refine ⟨st', s', ?_, hl, hst.trans hstat1, hsa.trans hstart1, ?_, hdec.trans hfdec,
      hnow.trans hfnow⟩
    · rw [Enforcer.execLoop, hr]
      exact hrun
    · rw [hex, hfex]
      simp

/-- Run of the action loop whose first failure is at index `k`: the loop
stops with that error, exactly the first `k+1` actions executed, an
`action_failed` event recorded, status state untouched. -/
theorem execLoop_fail_run (exec : Enforcer.Action → Except String Enforcer.ActionResult)
    (ref total : Nat) :
    ∀ (acts : List Enforcer.Action) (k i : Nat) (st : Enforcer.PEState)
      (s : Enforcer.EnforcementStatus) (a : Enforcer.Action) (e : String),
      lookupA st.statuses ref = some s →
      acts[k]? = some a →
      (∀ j, j < k → ∀ b, acts[j]? = some b → ∃ r, exec b = .ok r) →
      exec a = .error e →
      ∃ st' s', Enforcer.execLoop exec ref total st acts i = (st', some e) ∧
        lookupA st'.statuses ref = some s' ∧
        s'.status = s.status ∧
        (∃ ev ∈ s'.events, ev.etype = "action_failed") ∧
        st'.executed = st.executed ++ acts.take (k + 1) ∧
        st'.decisions = st.decisions ∧ st'.now = st.now := by
  intro acts
  induction acts with
  | nil =>
    intro k i st s a e _ ha _ _
    simp at ha
  | cons a0 rest ih =>
    intro k i st s a e hs ha hprev herr
    cases k with
    | zero =>
      have ha0 : a0 = a := by simpa using ha
      subst ha0
      obtain ⟨s1, hs1, hstat1, _, hev1⟩ := loopBlocksFail_lookup st ref a0 e i total s hs
      obtain ⟨hfex, hfdec, hfnow, _⟩ := loopBlocksFail_frame st ref a0 e i total
      refine ⟨Enforcer.loopBlocksFail st ref a0 e i total, s1, ?_, hs1, hstat1, hev1, ?_,
        hfdec, hfnow⟩
      · rw [Enforcer.execLoop, herr]
      · rw [hfex]
        simp
    | succ k' =>
      have ha' : rest[k']? = some a := by simpa using ha
      obtain ⟨r, hr⟩ := hprev 0 (Nat.succ_pos k') a0 (by simp)
      obtain ⟨s1, hs1, hstat1, _⟩ := loopBlocksOk_lookup st ref a0 r i total s hs
      obtain ⟨st', s', hrun, hl, hst, hev, hex, hdec, hnow⟩ :=
        ih k' (i + 1) (Enforcer.loopBlocksOk st ref a0 r i total) s1 a e hs1 ha'
          (fun j hj b hb => hprev (j + 1) (by omega) b (by simpa using hb)) herr
      obtain ⟨hfex, hfdec, hfnow, _⟩ := loopBlocksOk_frame st ref a0 r i total
      refine ⟨st', s', ?_, hl, hst.trans hstat1, hev, ?_, hdec.trans hfdec,
        hnow.trans hfnow⟩
      · rw [Enforcer.execLoop, hr]
        exact hrun
      · rw [hex, hfex]
        simp

/-- C5: In `executeEnforcement` over a stored status record and a stored
workload, when the decision's actions generate successfully: (failure part)
if the engine fails on action `k` after succeeding on every earlier action,
the enforcement status becomes Failed with the message "Action execution
failed: <err>", an `action_failed` event is recorded, and exactly the first
`k+1` actions were handed to the engine — none after the failing one;
(completion part) if the engine succeeds on every action, the status becomes
Completed with the success message, every action was handed to the engine in
order, and the stored decision record is updated to Completed. -/
theorem C5_failure_stops_and_completion_updates
    (exec : Enforcer.Action → Except String Enforcer.ActionResult)
    (st : Enforcer.PEState) (d : Enforcer.Decision) (ref : Nat)
    (s : Enforcer.EnforcementStatus) (w : Enforcer.Workload)
    (actions : List Enforcer.Action)
    (hs : lookupA st.statuses ref = some s)
    (hw : lookupA st.workloads d.workloadId = some w)
    (hg : Enforcer.generateActions d w = .ok actions) :
    (∀ k a e, actions[k]? = some a →
      (∀ j, j < k → ∀ b, actions[j]? = some b → ∃ r, exec b = .ok r) →
      exec a = .error e →
      ∃ s' : Enforcer.EnforcementStatus,
        lookupA (Enforcer.executeEnforcementRun exec st d ref).statuses ref = some s' ∧
        s'.status = .failed ∧
        s'.message = "Action execution failed: " ++ e ∧
        (∃ ev ∈ s'.events, ev.etype = "action_failed") ∧
        (Enforcer.executeEnforcementRun exec st d ref).executed =
          st.executed ++ actions.take (k + 1)) ∧
    ((∀ b ∈ actions, ∃ r, exec b = .ok r) →
      ∃ s' : Enforcer.EnforcementStatus,
        lookupA (Enforcer.executeEnforcementRun exec st d ref).statuses ref = some s' ∧
        s'.status = .completed ∧
        s'.message = "Enforcement completed successfully" ∧
        (Enforcer.executeEnforcementRun exec st d ref).executed = st.executed ++ actions ∧
        lookupA (Enforcer.executeEnforcementRun exec st d ref).decisions d.id =
          (lookupA st.decisions d.id).map
            (fun _ => { d with status := .completed })) := by
  obtain ⟨s1, hs1, hstat1, _⟩ := runPrefix_lookup st ref s hs
  obtain ⟨hpex, hpdec, hpnow, hpw⟩ := runPrefix_frame st ref
  have hw2 : lookupA (Enforcer.runPrefix st ref).workloads d.workloadId = some w := by
    rw [hpw]
    exact hw
  constructor
  · intro k a e ha hprev herr
    obtain ⟨st', s', hrun, hl, hst, hev, hex, hdec, hnow⟩ :=
      execLoop_fail_run exec ref actions.length actions k 0 (Enforcer.runPrefix st ref)
        s1 a e hs1 ha hprev herr
    have hred : Enforcer.executeEnforcementRun exec st d ref =
        Enforcer.deferredRun
          (Enforcer.updateStatusGo st' ref .failed ("Action execution failed: " ++ e))
          ref := by
      unfold Enforcer.executeEnforcementRun
      simp only [hw2, hg, hrun]
    have hl2 := updateStatusGo_failed_lookup st' ref ("Action execution failed: " ++ e) s' hl
    rw [hred]
    refine ⟨_, deferredRun_not_running _ ref _ hl2 (by simp), rfl, rfl, ?_, ?_⟩
    · obtain ⟨ev0, hm, he0⟩ := hev
      exact ⟨ev0, List.mem_append_left _ hm, he0⟩
    · rw [(deferredRun_frame _ ref).1, (updateStatusGo_frame st' ref _ _).1, hex, hpex]
  · intro hok
    obtain ⟨st', s', hrun, hl, hst, hsa, hex, hdec, hnow⟩ :=
      execLoop_ok_run exec ref actions.length actions 0 (Enforcer.runPrefix st ref) s1 hs1 hok
    have hred : Enforcer.executeEnforcementRun exec st d ref =
        Enforcer.deferredRun
          { st' with
            decisions := updateA st'.decisions
                           ({ d with status := .completed } : Enforcer.Decision).id
                           { d with status := .completed } } ref := by
      unfold Enforcer.executeEnforcementRun
      simp only [hw2, hg, hrun]
    have hl4 : lookupA ({ st' with
      decisions := updateA st'.decisions
                     ({ d with status := .completed } : Enforcer.Decision).id
                     { d with status := .completed } } : Enforcer.PEState).statuses ref =
      some s' := hl
    have hr : s'.status = .running := hst.trans hstat1
    rw [hred]
    refine ⟨_, deferredRun_running _ ref _ hl4 hr, rfl, rfl, ?_, ?_⟩
    · rw [(deferredRun_frame _ ref).1]
      show st'.executed = st.executed ++ actions
      rw [hex, hpex]
    · rw [(deferredRun_frame _ ref).2.1]
      refine (lookupA_updateA_self st'.decisions _ _).trans ?_
      rw [hdec, hpdec]

/-- C5 witness: on a concrete running state holding the Optimize decision's
status behind reference 0 and its workload, with the always-succeeding
engine, the theorem's hypotheses hold and the completion part applies. -/
theorem C5_failure_stops_and_completion_updates_witness :
    lookupA Enforcer.exRunningState.statuses 0 = some Enforcer.exRunningStatus ∧
    lookupA Enforcer.exRunningState.workloads Enforcer.exOptimizeDecision.workloadId =
      some Enforcer.exWorkload ∧
    Enforcer.generateActions Enforcer.exOptimizeDecision Enforcer.exWorkload =
      .ok (Enforcer.generateOptimizeActions Enforcer.exOptimizeDecision
        Enforcer.exWorkload) ∧
    ∃ s', lookupA (Enforcer.executeEnforcementRun Enforcer.exEngineOk
        Enforcer.exRunningState Enforcer.exOptimizeDecision 0).statuses 0 = some s' ∧
      s'.status = .completed := by
  refine ⟨rfl, rfl, rfl, ?_⟩
  obtain ⟨s', hl, hstat, -⟩ :=
    (C5_failure_stops_and_completion_updates Enforcer.exEngineOk Enforcer.exRunningState
      Enforcer.exOptimizeDecision 0 Enforcer.exRunningStatus Enforcer.exWorkload
      (Enforcer.generateOptimizeActions Enforcer.exOptimizeDecision Enforcer.exWorkload)
      rfl rfl rfl).2
      (fun b _ => ⟨{ success := true, durationSec := 1 }, rfl⟩)
  exact ⟨s', hl, hstat⟩

end KCloud
